import Mathlib

/-!
# fleet-server: artifact fetch path, output configuration, coordination plane

A shallow embedding of

* `internal/pkg/api/handleArtifacts.go` (the artifact handler: input validation,
  cache-through fetch, throttle-gated store access, decode and integrity check);
* `internal/pkg/config/output.go` (`Output.Validate`, `Elasticsearch.InitDefaults`,
  `Elasticsearch.Validate`, `Elasticsearch.ToESConfig`, `makeURL`);
* the unenroll scan and the lease release of the coordinator, which are given by
  the specification only.

Go strings and byte slices are byte sequences; both are lists of `Byte`.
The collaborators of the handler (throttle, store lookup, authentication, cache
admission) are explicit inputs of every call, the cache content and the calls
made to the collaborators are explicit state.  The Go standard library
functions that decide a result (`encoding/hex`, `encoding/base64`, `net/url`,
`net.SplitHostPort`, `strconv.Itoa`) are modelled; SHA-256, `json.Unmarshal` and
the functions of `elastic-agent-libs` are parameters.
-/

namespace Fleet

/-! ## Bytes and strings -/

/-- One byte (`byte` in Go). -/
abbrev Byte := Fin 256

/-- A Go `string` (and a Go `[]byte`): a finite sequence of bytes. -/
abbrev GoString := List Byte

/-- The bytes of an ASCII literal, for writing concrete inputs. -/
def ascii (s : String) : GoString :=
  s.toList.map (fun c => Fin.ofNat c.toNat)

/-! ## Errors -/

/-- Error values of the artifact path.  The four sentinels are the package
variables of `handleArtifacts.go`; `wrap` is `errors.Wrap(err, msg)`; the
remaining constructors are the errors of the standard library decoders
(`encoding/hex`, `encoding/base64`, `encoding/json`), errors raised by the
collaborators (`external`), `fmt.Errorf(msg)` (`errorf`) and the errors of `url.Parse`
(`urlParse`, with the reason it gives). -/
inductive Err where
  | ErrorThrottle
  | ErrorBadSha2
  | ErrorRecord
  | ErrorMismatchSha2
  | wrap (msg : String) (cause : Err)
  | hexInvalidByte (b : Byte)
  | hexErrLength
  | base64CorruptInput
  | jsonError
  | external (msg : String)
  | errorf (msg : String)
  | urlParse (reason : String)
deriving DecidableEq, Repr

/-! ## `encoding/hex` -/

/-- Value of one hexadecimal digit (`fromHexChar` / `reverseHexTable` in Go's
`encoding/hex`): `0-9`, `a-f` and `A-F` are digits, nothing else is. -/
def fromHexChar (c : Byte) : Option Nat :=
  if 48 ≤ c.val ∧ c.val ≤ 57 then some (c.val - 48)
  else if 97 ≤ c.val ∧ c.val ≤ 102 then some (c.val - 97 + 10)
  else if 65 ≤ c.val ∧ c.val ≤ 70 then some (c.val - 65 + 10)
  else none

/-- Whether a byte is a hexadecimal digit, in either case. -/
def isHexDigit (c : Byte) : Bool :=
  (48 ≤ c.val && c.val ≤ 57) || (97 ≤ c.val && c.val ≤ 102) || (65 ≤ c.val && c.val ≤ 70)

/-- Whether a byte is a lowercase hexadecimal digit: `0-9` or `a-f`. -/
def isLowerHexDigit (c : Byte) : Bool :=
  (48 ≤ c.val && c.val ≤ 57) || (97 ≤ c.val && c.val ≤ 102)

/-- Go's `hex.DecodeString`: pairs of digits are decoded left to right, the first
byte that is no digit is reported, an odd length is reported last. -/
def hexDecodeString : GoString → Except Err (List Byte)
  | [] => .ok []
  | [p] =>
    match fromHexChar p with
    | none => .error (.hexInvalidByte p)
    | some _ => .error .hexErrLength
  | p :: q :: rest =>
    match fromHexChar p with
    | none => .error (.hexInvalidByte p)
    | some a =>
      match fromHexChar q with
      | none => .error (.hexInvalidByte q)
      | some b =>
        match hexDecodeString rest with
        | .error e => .error e
        | .ok bs => .ok (Fin.ofNat (a * 16 + b) :: bs)

/-- The lowercase digit of a value below 16 (`hextable` in Go's `encoding/hex`). -/
def hexDigit (n : Nat) : Byte :=
  if n < 10 then Fin.ofNat (48 + n) else Fin.ofNat (97 + (n - 10))

/-- Go's `hex.EncodeToString`: two lowercase digits per byte. -/
def hexEncodeToString : List Byte → GoString
  | [] => []
  | b :: bs => hexDigit (b.val / 16) :: hexDigit (b.val % 16) :: hexEncodeToString bs

/-! ## Input validation -/

/-- The function `validateSha2String`; `none` is Go's `nil` error. -/
def validateSha2String (sha2 : GoString) : Option Err :=
  if sha2.length ≠ 64 then some .ErrorBadSha2
  else
    match hexDecodeString sha2 with
    | .error _ => some .ErrorBadSha2
    | .ok _ => none

/-! ## `encoding/base64` (standard encoding, with padding) -/

/-- Value of one character of the standard alphabet (`decodeMap` of
`base64.StdEncoding`): `A-Z`, `a-z`, `0-9`, `+`, `/`. -/
def b64Value (c : Byte) : Option Nat :=
  if 65 ≤ c.val ∧ c.val ≤ 90 then some (c.val - 65)
  else if 97 ≤ c.val ∧ c.val ≤ 122 then some (c.val - 97 + 26)
  else if 48 ≤ c.val ∧ c.val ≤ 57 then some (c.val - 48 + 52)
  else if c.val = 43 then some 62
  else if c.val = 47 then some 63
  else none

/-- The character of a 6-bit value (`encodeStd`). -/
def b64Char (n : Nat) : Byte :=
  if n < 26 then Fin.ofNat (65 + n)
  else if n < 52 then Fin.ofNat (97 + (n - 26))
  else if n < 62 then Fin.ofNat (48 + (n - 52))
  else if n = 62 then 43
  else 47

/-- The three bytes of a quantum of four 6-bit values:
`val = d0<<18 | d1<<12 | d2<<6 | d3`, then `byte(val>>16), byte(val>>8), byte(val)`. -/
def quantumBytes (d0 d1 d2 d3 : Nat) : List Byte :=
  let val := d0 * 262144 + d1 * 4096 + d2 * 64 + d3
  [Fin.ofNat (val / 65536), Fin.ofNat (val / 256), Fin.ofNat val]

/-- Drop leading `\n` and `\r` (the "skip over newlines" loops of `decodeQuantum`). -/
def skipNewlines : List Byte → List Byte
  | [] => []
  | c :: rest => if c.val = 10 ∨ c.val = 13 then skipNewlines rest else c :: rest

/-- The decoding loop of Go's `base64.StdEncoding.Decode` (`decodeQuantum` repeated):
`pend` holds the values of the current quantum read so far.  Newlines are
ignored; a full quantum yields three bytes; padding is accepted only after two
or three values, must be complete, and only newlines may follow it; input ending
inside a quantum is corrupt.  The offset carried by `CorruptInputError` is not
kept. -/
def base64DecodeAux : List Byte → List Nat → Except Err (List Byte)
  | [], [] => .ok []
  | [], _ :: _ => .error .base64CorruptInput
  | c :: rest, pend =>
    match b64Value c with
    | some v =>
      match pend with
      | [d0, d1, d2] =>
        match base64DecodeAux rest [] with
        | .error e => .error e
        | .ok bs => .ok (quantumBytes d0 d1 d2 v ++ bs)
      | _ => base64DecodeAux rest (pend ++ [v])
    | none =>
      if c.val = 10 ∨ c.val = 13 then base64DecodeAux rest pend
      else if c.val ≠ 61 then .error .base64CorruptInput
      else
        match pend with
        | [d0, d1] =>
          match skipNewlines rest with
          | [] => .error .base64CorruptInput
          | p :: rest2 =>
            if p.val ≠ 61 then .error .base64CorruptInput
            else if skipNewlines rest2 = [] then .ok ((quantumBytes d0 d1 0 0).take 1)
            else .error .base64CorruptInput
        | [d0, d1, d2] =>
          if skipNewlines rest = [] then .ok ((quantumBytes d0 d1 d2 0).take 2)
          else .error .base64CorruptInput
        | _ => .error .base64CorruptInput

/-- Go's `base64.StdEncoding.DecodeString`. -/
def base64DecodeString (s : GoString) : Except Err (List Byte) :=
  base64DecodeAux s []

/-- Go's `base64.StdEncoding.EncodeToString`: three bytes give four characters,
a last group of one or two bytes is padded with `=`. -/
def base64EncodeToString : List Byte → GoString
  | [] => []
  | [b0] =>
    let val := b0.val * 65536
    [b64Char (val / 262144 % 64), b64Char (val / 4096 % 64), 61, 61]
  | [b0, b1] =>
    let val := b0.val * 65536 + b1.val * 256
    [b64Char (val / 262144 % 64), b64Char (val / 4096 % 64), b64Char (val / 64 % 64), 61]
  | b0 :: b1 :: b2 :: rest =>
    let val := b0.val * 65536 + b1.val * 256 + b2.val
    b64Char (val / 262144 % 64) :: b64Char (val / 4096 % 64) :: b64Char (val / 64 % 64)
      :: b64Char (val % 64) :: base64EncodeToString rest

/-! ## Standard library functions taken as parameters -/

/-- The two standard library functions of the artifact path that are not
modelled bit by bit: `sha256.Sum256` (the digest as a byte sequence) and
`json.Unmarshal(data, &s)` into a fresh string `s` (`some s` when it returns a
nil error, `none` when it fails).  Every theorem holds for each choice of them. -/
structure Lib where
  sha256 : List Byte → List Byte
  jsonUnmarshalString : List Byte → Option GoString

/-! ## Data model -/

/-- The fields of `model.Artifact` the handler reads or writes. -/
structure Artifact where
  Identifier : GoString
  DecodedSha256 : GoString
  EncodedSha256 : GoString
  Body : List Byte
  DecodedSize : Int
  CompressionAlgorithm : GoString
  EncryptionAlgorithm : GoString
  Created : GoString
deriving DecidableEq, Repr

/-- The field of `model.Agent` the handler reads. -/
structure Agent where
  AccessAPIKeyID : GoString
deriving DecidableEq, Repr

/-- The part of the HTTP request that authentication looks at. -/
structure Request where
  Authorization : GoString
deriving DecidableEq, Repr

/-- The constant `defaultThrottleTTL = time.Minute`, in nanoseconds (`time.Duration`). -/
def defaultThrottleTTL : Nat := 60 * 1000000000

/-- Calls made to the collaborators of `ArtifactT`, in the order they happen. -/
inductive Event where
  | authAgent (r : Request)
  | cacheGet (ident sha2 : GoString)
  | cacheSet (a : Artifact)
  | throttleAcquire (key : GoString) (ttl : Nat)
  | tokenRelease
  | findArtifact (ident sha2 : GoString)
deriving DecidableEq, Repr

/-- Whether an event is a write of the artifact cache. -/
def Event.isCacheSet : Event → Bool
  | .cacheSet _ => true
  | _ => false

/-- What the collaborators answer during one request: `authAgent` (the agent
record, or an error), `esThrottle.Acquire` (whether a token is returned rather
than nil), `dl.FindArtifact` on the store, and whether the cache admits a
`SetArtifact`. -/
structure Collab where
  authAgent : Request → Except Err Agent
  acquire : GoString → Nat → Bool
  findArtifact : GoString → GoString → Except Err Artifact
  cacheAdmits : Artifact → Bool

/-- State of an `ArtifactT` between calls: the content of the artifact cache and
the calls made so far. -/
structure State where
  cache : List Artifact
  trace : List Event
deriving DecidableEq, Repr

/-- Record one call. -/
def State.log (s : State) (e : Event) : State :=
  { s with trace := s.trace ++ [e] }

/-- Modelled from the spec: the cache package's `GetArtifact` is not among the
sources; §4.3 gives the cache as a mapping `(identifier, sha256) → Artifact`
with `GetArtifact(id, sha2) → (Artifact, bool)`. -/
def cacheGetArtifact (c : List Artifact) (ident sha2 : GoString) : Option Artifact :=
  c.find? (fun a => decide (a.Identifier = ident ∧ a.DecodedSha256 = sha2))

/-- Modelled from the spec: the cache package's `SetArtifact` is not among the
sources; §4.3: it stores the artifact under its `(identifier, sha256)` and "may
silently reject if admission predicts no value" (`admitted = false`). -/
def cacheSetArtifact (c : List Artifact) (admitted : Bool) (a : Artifact) : List Artifact :=
  if admitted then
    a :: c.filter
      (fun x => !decide (x.Identifier = a.Identifier ∧ x.DecodedSha256 = a.DecodedSha256))
  else c

/-! ## The artifact handler -/

/-- The function `validateSha2Data`; `none` is Go's `nil` error. -/
def validateSha2Data (lib : Lib) (data : List Byte) (sha2 : GoString) : Option Err :=
  match hexDecodeString sha2 with
  | .error err => some (.wrap "sha2 hex decode" err)
  | .ok src =>
    if lib.sha256 data ≠ src then some .ErrorMismatchSha2
    else none

/-- The method `ArtifactT.fetchArtifact`: a token is acquired for `sha2`; without a token
the store is not asked; the token is released on return (`defer`). -/
def fetchArtifact (env : Collab) (s : State) (ident sha2 : GoString) :
    Except Err Artifact × State :=
  let s1 := s.log (.throttleAcquire sha2 defaultThrottleTTL)
  if env.acquire sha2 defaultThrottleTTL = false then
    (.error .ErrorThrottle, s1)
  else
    let s2 := (s1.log (.findArtifact ident sha2)).log .tokenRelease
    match env.findArtifact ident sha2 with
    | .error err => (.error (.wrap "fetchArtifact" err), s2)
    | .ok artifact => (.ok artifact, s2)

/-- The method `ArtifactT.getArtifact`: the cached artifact on a hit; on a miss the
fetched record is unmarshalled, base64-decoded and checked against its
`EncodedSha256`, then stored in the cache with the decoded body. -/
def getArtifact (lib : Lib) (env : Collab) (s : State) (ident sha2 : GoString) :
    Except Err Artifact × State :=
  let s1 := s.log (.cacheGet ident sha2)
  match cacheGetArtifact s.cache ident sha2 with
  | some artifact => (.ok artifact, s1)
  | none =>
    match fetchArtifact env s1 ident sha2 with
    | (.error err, s2) => (.error err, s2)
    | (.ok art, s2) =>
      match lib.jsonUnmarshalString art.Body with
      | none => (.error .jsonError, s2)
      | some srcPayload =>
        match base64DecodeString srcPayload with
        | .error err => (.error err, s2)
        | .ok dstPayload =>
          match validateSha2Data lib dstPayload art.EncodedSha256 with
          | some err => (.error err, s2)
          | none =>
            let art1 := { art with Body := dstPayload }
            (.ok art1,
              { cache := cacheSetArtifact s2.cache (env.cacheAdmits art1) art1,
                trace := s2.trace ++ [.cacheSet art1] })

/-- The method `ArtifactT.authorizeArtifact`: always `nil`. -/
def authorizeArtifact (_agent : Agent) (_ident _sha2 : GoString) : Option Err :=
  none

/-- The method `ArtifactT.processRequest`; the returned reader is the sequence of bytes it
yields. -/
def processRequest (lib : Lib) (env : Collab) (s : State) (agent : Agent)
    (id sha2 : GoString) : Except Err (List Byte) × State :=
  match validateSha2String sha2 with
  | some err => (.error err, s)
  | none =>
    match authorizeArtifact agent id sha2 with
    | some err => (.error err, s)
    | none =>
      match getArtifact lib env s id sha2 with
      | (.error err, s1) => (.error err, s1)
      | (.ok artifact, s1) =>
        if artifact.Identifier ≠ id ∨ artifact.DecodedSha256 ≠ sha2 then
          (.error .ErrorRecord, s1)
        else
          (.ok artifact.Body, s1)

/-- The method `ArtifactT.handleArtifacts`: authentication, then `processRequest`. -/
def handleArtifacts (lib : Lib) (env : Collab) (s : State) (r : Request)
    (id sha2 : GoString) : Except Err (List Byte) × State :=
  let s1 := s.log (.authAgent r)
  match env.authAgent r with
  | .error err => (.error err, s1)
  | .ok agent => processRequest lib env s1 agent id sha2

/-- One step of the life of the cache: a `processRequest` call, or the cache
dropping entries on its own (eviction, expiry). -/
inductive Step where
  | request (env : Collab) (agent : Agent) (id sha2 : GoString)
  | evict (keep : Artifact → Bool)

/-- State after one step. -/
def step (lib : Lib) (s : State) : Step → State
  | .request env agent id sha2 => (processRequest lib env s agent id sha2).2
  | .evict keep => { s with cache := s.cache.filter keep }

/-- State after a sequence of steps. -/
def run (lib : Lib) (steps : List Step) (s : State) : State :=
  steps.foldl (step lib) s

/-- The empty cache, before any call. -/
def State.init : State := { cache := [], trace := [] }

/-- Every cached artifact carries the digest of its own body. -/
def CacheSound (lib : Lib) (c : List Artifact) : Prop :=
  ∀ a ∈ c, hexDecodeString a.EncodedSha256 = .ok (lib.sha256 a.Body)

/-! ## Concrete inputs -/

/-- A small instance of `Lib` for concrete inputs: a one-byte checksum (the sum
of the bytes) in place of SHA-256, and a JSON reader that accepts exactly a text
between double quotes without escapes. -/
def exampleLib : Lib where
  sha256 := fun data => [Fin.ofNat (data.map Fin.val).sum]
  jsonUnmarshalString := fun data =>
    match data with
    | 34 :: rest =>
      if rest.getLast? = some 34 ∧ ∀ c ∈ rest.dropLast, c ≠ 34 ∧ c ≠ 92 ∧ 32 ≤ c.val then
        some rest.dropLast
      else none
    | _ => none

/-- A well-formed sha2: 64 times `a`. -/
def exampleSha2 : GoString := List.replicate 64 97

/-- The identifier `a`. -/
def exampleId : GoString := [97]

/-- The payload `hi`. -/
def exampleRaw : List Byte := [104, 105]

/-- An agent record. -/
def exampleAgent : Agent := { AccessAPIKeyID := [107] }

/-- A store record for `exampleId` and `exampleSha2` holding `exampleRaw`: the
body is the JSON string `"aGk="`, the encoded digest is that of `exampleLib`. -/
def exampleRecord : Artifact where
  Identifier := exampleId
  DecodedSha256 := exampleSha2
  EncodedSha256 := hexEncodeToString (exampleLib.sha256 exampleRaw)
  Body := 34 :: base64EncodeToString exampleRaw ++ [34]
  DecodedSize := 2
  CompressionAlgorithm := []
  EncryptionAlgorithm := []
  Created := []

/-- Collaborators that authenticate, grant a token, find `exampleRecord` and
admit to the cache. -/
def exampleEnv : Collab where
  authAgent := fun _ => .ok exampleAgent
  acquire := fun _ _ => true
  findArtifact := fun _ _ => .ok exampleRecord
  cacheAdmits := fun _ => true

/-- As `exampleEnv`, but authentication fails. -/
def unauthorizedEnv : Collab :=
  { exampleEnv with authAgent := fun _ => .error (.external "unauthorized") }

/-- As `exampleEnv`, but the throttle returns no token. -/
def throttledEnv : Collab :=
  { exampleEnv with acquire := fun _ _ => false }

/-- A record stored under another identifier (`b`) whose encoded digest `zz` is
not hexadecimal. -/
def foreignRecord : Artifact :=
  { exampleRecord with Identifier := [98], EncodedSha256 := [122, 122] }

/-- As `exampleEnv`, but the store returns `foreignRecord`. -/
def foreignEnv : Collab :=
  { exampleEnv with findArtifact := fun _ _ => .ok foreignRecord }

/-- A record for `exampleId` and `exampleSha2` whose encoded digest `00` is not
the digest of its body. -/
def corruptRecord : Artifact :=
  { exampleRecord with EncodedSha256 := [48, 48] }

/-- As `exampleEnv`, but the store returns `corruptRecord`. -/
def corruptEnv : Collab :=
  { exampleEnv with findArtifact := fun _ _ => .ok corruptRecord }

/-! ## Output configuration (`internal/pkg/config/output.go`) -/

/-- The part of `tlscommon.Config` that `IsEnabled` reads. -/
structure TLSConfig where
  Enabled : Option Bool
deriving DecidableEq, Repr

/-- The struct `config.Elasticsearch`; durations are in nanoseconds, a nil `TLS` is `none`,
maps are lists of key and value. -/
structure Elasticsearch where
  Protocol : GoString
  Hosts : List GoString
  Path : GoString
  Headers : List (GoString × GoString)
  APIKey : GoString
  ServiceToken : GoString
  ProxyURL : GoString
  ProxyDisable : Bool
  ProxyHeaders : List (GoString × GoString)
  TLS : Option TLSConfig
  MaxRetries : Int
  MaxConnPerHost : Int
  Timeout : Int
  MaxContentLength : Int
deriving DecidableEq, Repr

/-- A Go `map[string]V` that is not nil: finitely many entries with distinct keys. -/
abbrev GoMap (V : Type) := AList (fun _ : GoString => V)

/-- The struct `config.Output`; `V` stands for the empty interface, a nil `Extra` is `none`. -/
structure Output (V : Type) where
  Elasticsearch : Elasticsearch
  Extra : Option (GoMap V)

/-- The key `Output.Validate` looks up. -/
def elasticsearchKey : GoString := ascii "elasticsearch"

/-- The method `Output.Validate`: the returned error (`none` is nil) and the receiver
afterwards. -/
def Output.Validate {V : Type} (c : Output V) : Option Err × Output V :=
  match c.Extra with
  | none => (none, c)
  | some extra =>
    let ok := (extra.lookup elasticsearchKey).isSome
    let len := extra.entries.length
    if (!ok && decide (len > 0)) || (ok && decide (len > 1)) then
      (some (.errorf "can only contain elasticsearch key"), c)
    else
      (none, { c with Extra := none })

/-! ## Standard library: strings, `net/url`, `net`, `strconv`

Models of the Go standard library functions `makeURL` calls.  Characters are
written as their ASCII codes. -/

/-- ASCII letter. -/
def isAlpha (c : Byte) : Bool :=
  (97 ≤ c.val && c.val ≤ 122) || (65 ≤ c.val && c.val ≤ 90)

/-- ASCII decimal digit. -/
def isDigit (c : Byte) : Bool :=
  48 ≤ c.val && c.val ≤ 57

/-- Go's `strings.ToLower` on ASCII text: `A-Z` become `a-z`. -/
def toLowerASCII (s : GoString) : GoString :=
  s.map (fun c => if 65 ≤ c.val ∧ c.val ≤ 90 then Fin.ofNat (c.val + 32) else c)

/-- Go's `strings.Cut(s, sep)` for a one-byte separator: the text before the first
`sep`, the text after it, and whether `sep` occurs. -/
def cutByte (sep : Nat) : GoString → GoString × GoString × Bool
  | [] => ([], [], false)
  | c :: cs =>
    if c.val = sep then ([], cs, true)
    else ((c :: (cutByte sep cs).1), (cutByte sep cs).2.1, (cutByte sep cs).2.2)

/-- Split at the last `sep` (`i := strings.LastIndex(s, sep)`, then `s[:i]` and
`s[i+1:]`); `none` when `sep` does not occur. -/
def cutLastByte (sep : Nat) : GoString → Option (GoString × GoString)
  | [] => none
  | c :: cs =>
    match cutLastByte sep cs with
    | some (a, b) => some (c :: a, b)
    | none => if c.val = sep then some ([], cs) else none

/-- Whether a byte with the given code occurs (`strings.Contains` for one byte). -/
def containsByte (sep : Nat) (s : GoString) : Bool :=
  s.any (fun c => c.val = sep)

/-- Go's `strings.Count` for a one-byte separator. -/
def countByte (sep : Nat) (s : GoString) : Nat :=
  s.countP (fun c => c.val = sep)

/-- Go's `strings.Index(s, pat)`; `none` is `-1`. -/
def indexSub (pat : GoString) : GoString → Option Nat
  | [] => if pat = [] then some 0 else none
  | c :: cs =>
    if pat.isPrefixOf (c :: cs) then some 0
    else (indexSub pat cs).map (fun i => i + 1)

/-- Go's `strconv.Itoa`. -/
def itoa (n : Int) : GoString :=
  match n with
  | .ofNat m => (Nat.toDigits 10 m).map (fun c => Fin.ofNat c.toNat)
  | .negSucc m => 45 :: (Nat.toDigits 10 (m + 1)).map (fun c => Fin.ofNat c.toNat)

/-- The encoding modes of `net/url`. -/
inductive Encoding where
  | encodePath
  | encodePathSegment
  | encodeHost
  | encodeZone
  | encodeUserPassword
  | encodeQueryComponent
  | encodeFragment
deriving DecidableEq, Repr

/-- The function `shouldEscape` of `net/url`. -/
def shouldEscape (c : Byte) (mode : Encoding) : Bool :=
  if isAlpha c || isDigit c then false
  else if (mode = .encodeHost || mode = .encodeZone) &&
      decide (c.val ∈ [33, 36, 38, 39, 40, 41, 42, 43, 44, 59, 61, 58, 91, 93, 60, 62, 34])
    then false
  else if decide (c.val ∈ [45, 95, 46, 126]) then false
  else if decide (c.val ∈ [36, 38, 43, 44, 47, 58, 59, 61, 63, 64]) then
    match mode with
    | .encodePath => decide (c.val = 63)
    | .encodePathSegment => decide (c.val = 47 ∨ c.val = 59 ∨ c.val = 44 ∨ c.val = 63)
    | .encodeUserPassword => decide (c.val = 64 ∨ c.val = 47 ∨ c.val = 63 ∨ c.val = 58)
    | .encodeQueryComponent => true
    | .encodeFragment => false
    | _ => true
  else if mode = .encodeFragment && decide (c.val ∈ [33, 40, 41, 42]) then false
  else true

/-- The function `ishex` of `net/url`. -/
def ishex (c : Byte) : Bool :=
  isDigit c || (97 ≤ c.val && c.val ≤ 102) || (65 ≤ c.val && c.val ≤ 70)

/-- The function `unhex` of `net/url`. -/
def unhex (c : Byte) : Nat :=
  if isDigit c then c.val - 48
  else if 97 ≤ c.val ∧ c.val ≤ 102 then c.val - 97 + 10
  else if 65 ≤ c.val ∧ c.val ≤ 70 then c.val - 65 + 10
  else 0

/-- The function `unescape` of `net/url`: the first malformed escape or (in host
mode) the first byte that a host cannot hold is an error; otherwise `%XX` is
decoded, and `+` becomes a space in a query component. -/
def unescape (mode : Encoding) : GoString → Except Err GoString
  | [] => .ok []
  | c :: rest =>
    if c.val = 37 then
      match rest with
      | h1 :: h2 :: rest2 =>
        if ishex h1 && ishex h2 then
          if mode = .encodeHost ∧ unhex h1 < 8 ∧ ¬ (h1.val = 50 ∧ h2.val = 53) then
            .error (.urlParse "invalid URL escape")
          else if mode = .encodeZone ∧ ¬ (h1.val = 50 ∧ h2.val = 53) ∧
              unhex h1 * 16 + unhex h2 ≠ 32 ∧
              shouldEscape (Fin.ofNat (unhex h1 * 16 + unhex h2)) .encodeHost = true then
            .error (.urlParse "invalid URL escape")
          else
            match unescape mode rest2 with
            | .error e => .error e
            | .ok t => .ok (Fin.ofNat (unhex h1 * 16 + unhex h2) :: t)
        else .error (.urlParse "invalid URL escape")
      | _ => .error (.urlParse "invalid URL escape")
    else if c.val = 43 then
      match unescape mode rest with
      | .error e => .error e
      | .ok t => .ok ((if mode = .encodeQueryComponent then 32 else 43) :: t)
    else if (mode = .encodeHost ∨ mode = .encodeZone) ∧ c.val < 128 ∧
        shouldEscape c .encodeHost = true then
      .error (.urlParse "invalid character in host name")
    else
      match unescape mode rest with
      | .error e => .error e
      | .ok t => .ok (c :: t)

/-- The digits of `upperhex` in `net/url`. -/
def upperhex (n : Nat) : Byte :=
  if n < 10 then Fin.ofNat (48 + n) else Fin.ofNat (65 + (n - 10))

/-- The function `escape` of `net/url`. -/
def escape (mode : Encoding) : GoString → GoString
  | [] => []
  | c :: rest =>
    if c.val = 32 ∧ mode = .encodeQueryComponent then 43 :: escape mode rest
    else if shouldEscape c mode then
      37 :: upperhex (c.val / 16) :: upperhex (c.val % 16) :: escape mode rest
    else c :: escape mode rest

/-- The function `validEncoded` of `net/url`. -/
def validEncoded (mode : Encoding) (s : GoString) : Bool :=
  s.all (fun c =>
    decide (c.val ∈ [33, 36, 38, 39, 40, 41, 42, 43, 44, 59, 61, 58, 64, 91, 93, 37]) ||
      !shouldEscape c mode)

/-- The struct `url.Userinfo`. -/
structure Userinfo where
  username : GoString
  password : GoString
  passwordSet : Bool
deriving DecidableEq, Repr

/-- The struct `url.URL`; a nil `User` is `none`.  The field `OmitHost` of later Go
versions is left out: it is read only while `Host` is empty, and `makeURL` sets
a `Host` that is not empty before it prints the URL. -/
structure URL where
  Scheme : GoString
  Opaque : GoString
  User : Option Userinfo
  Host : GoString
  Path : GoString
  RawPath : GoString
  ForceQuery : Bool
  RawQuery : GoString
  Fragment : GoString
  RawFragment : GoString
deriving DecidableEq, Repr

/-- The zero `url.URL`. -/
def URL.empty : URL :=
  { Scheme := [], Opaque := [], User := none, Host := [], Path := [], RawPath := [],
    ForceQuery := false, RawQuery := [], Fragment := [], RawFragment := [] }

/-- The function `stringContainsCTLByte` of `net/url`. -/
def stringContainsCTLByte (s : GoString) : Bool :=
  s.any (fun c => decide (c.val < 32) || decide (c.val = 127))

/-- The loop of `getScheme` in `net/url`; `acc` is the text already scanned.  The
result is the scheme and the text after its colon, or an empty scheme and the
whole text. -/
def getSchemeAux (acc : GoString) : GoString → Except Err (GoString × GoString)
  | [] => .ok ([], acc)
  | c :: rest =>
    if isAlpha c then getSchemeAux (acc ++ [c]) rest
    else if isDigit c || decide (c.val = 43) || decide (c.val = 45) || decide (c.val = 46) then
      if acc = [] then .ok ([], acc ++ c :: rest) else getSchemeAux (acc ++ [c]) rest
    else if c.val = 58 then
      if acc = [] then .error (.urlParse "missing protocol scheme") else .ok (acc, rest)
    else .ok ([], acc ++ c :: rest)

/-- The function `getScheme` of `net/url`. -/
def getScheme (rawURL : GoString) : Except Err (GoString × GoString) :=
  getSchemeAux [] rawURL

/-- The function `validOptionalPort` of `net/url`. -/
def validOptionalPort (port : GoString) : Bool :=
  match port with
  | [] => true
  | c :: rest => decide (c.val = 58) && rest.all isDigit

/-- The function `validUserinfo` of `net/url`. -/
def validUserinfo (s : GoString) : Bool :=
  s.all (fun c => isAlpha c || isDigit c ||
    decide (c.val ∈ [45, 46, 95, 58, 126, 33, 36, 38, 39, 40, 41, 42, 43, 44, 59, 61, 37, 64]))

/-- The function `parseHost` of `net/url`. -/
def parseHost (host : GoString) : Except Err GoString :=
  if host.head? = some 91 then
    match cutLastByte 93 host with
    | none => .error (.urlParse "missing ']' in host")
    | some (inner, colonPort) =>
      if validOptionalPort colonPort = false then .error (.urlParse "invalid port after host")
      else
        match indexSub [37, 50, 53] inner with
        | some zone =>
          match unescape .encodeHost (host.take zone) with
          | .error e => .error e
          | .ok host1 =>
            match unescape .encodeZone ((host.take inner.length).drop zone) with
            | .error e => .error e
            | .ok host2 =>
              match unescape .encodeHost (host.drop inner.length) with
              | .error e => .error e
              | .ok host3 => .ok (host1 ++ host2 ++ host3)
        | none => unescape .encodeHost host
  else
    match cutLastByte 58 host with
    | some (before, _) =>
      if validOptionalPort (host.drop before.length) = false then
        .error (.urlParse "invalid port after host")
      else unescape .encodeHost host
    | none => unescape .encodeHost host

/-- The function `parseAuthority` of `net/url`. -/
def parseAuthority (authority : GoString) : Except Err (Option Userinfo × GoString) :=
  match cutLastByte 64 authority with
  | none =>
    match parseHost authority with
    | .error e => .error e
    | .ok host => .ok (none, host)
  | some (userinfo, hostpart) =>
    match parseHost hostpart with
    | .error e => .error e
    | .ok host =>
      if validUserinfo userinfo = false then .error (.urlParse "net/url: invalid userinfo")
      else if containsByte 58 userinfo = false then
        match unescape .encodeUserPassword userinfo with
        | .error e => .error e
        | .ok u => .ok (some { username := u, password := [], passwordSet := false }, host)
      else
        match unescape .encodeUserPassword (cutByte 58 userinfo).1 with
        | .error e => .error e
        | .ok u =>
          match unescape .encodeUserPassword (cutByte 58 userinfo).2.1 with
          | .error e => .error e
          | .ok p => .ok (some { username := u, password := p, passwordSet := true }, host)

/-- The method `URL.setPath` of `net/url`. -/
def URL.setPath (u : URL) (p : GoString) : Except Err URL :=
  match unescape .encodePath p with
  | .error e => .error e
  | .ok path =>
    .ok { u with Path := path, RawPath := if escape .encodePath path = p then [] else p }

/-- The method `URL.setFragment` of `net/url`. -/
def URL.setFragment (u : URL) (f : GoString) : Except Err URL :=
  match unescape .encodeFragment f with
  | .error e => .error e
  | .ok frag =>
    .ok { u with Fragment := frag,
                 RawFragment := if escape .encodeFragment frag = f then [] else f }

/-- The function `parse(rawURL, false)` of `net/url`: the URL without fragment. -/
def urlParseNoFragment (rawURL : GoString) : Except Err URL :=
  if stringContainsCTLByte rawURL then
    .error (.urlParse "net/url: invalid control character in URL")
  else if rawURL = [42] then .ok { URL.empty with Path := [42] }
  else
    match getScheme rawURL with
    | .error e => .error e
    | .ok (scheme0, rest0) =>
      let scheme := toLowerASCII scheme0
      let forceQuery : Bool := rest0.getLast? = some 63 && decide (countByte 63 rest0 = 1)
      let rest := if forceQuery then rest0.dropLast else (cutByte 63 rest0).1
      let rawQuery := if forceQuery then [] else (cutByte 63 rest0).2.1
      let url : URL :=
        { URL.empty with Scheme := scheme, ForceQuery := forceQuery, RawQuery := rawQuery }
      if rest.head? ≠ some 47 ∧ scheme ≠ [] then .ok { url with Opaque := rest }
      else if rest.head? ≠ some 47 ∧ containsByte 58 (cutByte 47 rest).1 = true then
        .error (.urlParse "first path segment in URL cannot contain colon")
      else if (scheme ≠ [] ∨ ¬ ([47, 47, 47] : GoString).isPrefixOf rest = true) ∧
          ([47, 47] : GoString).isPrefixOf rest = true then
        let authority0 := rest.drop 2
        let authority := (cutByte 47 authority0).1
        let rest2 := authority0.drop authority.length
        match parseAuthority authority with
        | .error e => .error e
        | .ok (user, host) => URL.setPath { url with User := user, Host := host } rest2
      else URL.setPath url rest

/-- Go's `url.Parse`. -/
def urlParse (rawURL : GoString) : Except Err URL :=
  match urlParseNoFragment (cutByte 35 rawURL).1 with
  | .error e => .error e
  | .ok url =>
    if (cutByte 35 rawURL).2.1 = [] then .ok url
    else URL.setFragment url (cutByte 35 rawURL).2.1

/-- The method `Userinfo.String` of `net/url`. -/
def Userinfo.String (u : Userinfo) : GoString :=
  escape .encodeUserPassword u.username ++
    (if u.passwordSet then 58 :: escape .encodeUserPassword u.password else [])

/-- The method `URL.EscapedPath` of `net/url`. -/
def URL.EscapedPath (u : URL) : GoString :=
  let rawFits : Bool :=
    match unescape .encodePath u.RawPath with
    | .ok p => decide (p = u.Path)
    | .error _ => false
  if u.RawPath ≠ [] ∧ validEncoded .encodePath u.RawPath = true ∧ rawFits = true then
    u.RawPath
  else if u.Path = [42] then [42]
  else escape .encodePath u.Path

/-- The method `URL.EscapedFragment` of `net/url`. -/
def URL.EscapedFragment (u : URL) : GoString :=
  let rawFits : Bool :=
    match unescape .encodeFragment u.RawFragment with
    | .ok f => decide (f = u.Fragment)
    | .error _ => false
  if u.RawFragment ≠ [] ∧ validEncoded .encodeFragment u.RawFragment = true ∧
      rawFits = true then
    u.RawFragment
  else escape .encodeFragment u.Fragment

/-- The method `URL.String` of `net/url`. -/
def URL.String (u : URL) : GoString :=
  let buf0 : GoString := if u.Scheme ≠ [] then u.Scheme ++ [58] else []
  let buf1 : GoString :=
    if u.Opaque ≠ [] then buf0 ++ u.Opaque
    else
      let auth : GoString :=
        if u.Scheme ≠ [] ∨ u.Host ≠ [] ∨ u.User.isSome = true then
          (if u.Host ≠ [] ∨ u.Path ≠ [] ∨ u.User.isSome = true then [47, 47] else []) ++
          (match u.User with
            | some ui => ui.String ++ [64]
            | none => []) ++
          (if u.Host ≠ [] then escape .encodeHost u.Host else [])
        else []
      let path := u.EscapedPath
      let slash : GoString := if path ≠ [] ∧ path.head? ≠ some 47 ∧ u.Host ≠ [] then [47] else []
      let dot : GoString :=
        if buf0 ++ auth ++ slash = [] ∧ containsByte 58 (cutByte 47 path).1 = true then [46, 47]
        else []
      buf0 ++ auth ++ slash ++ dot ++ path
  let buf2 : GoString :=
    if u.ForceQuery = true ∨ u.RawQuery ≠ [] then buf1 ++ 63 :: u.RawQuery else buf1
  if u.Fragment ≠ [] then buf2 ++ 35 :: u.EscapedFragment else buf2

/-- Go's `net.SplitHostPort`; `none` stands for every error. -/
def splitHostPort (hostport : GoString) : Option (GoString × GoString) :=
  match cutLastByte 58 hostport with
  | none => none
  | some (before, port) =>
    if hostport.head? = some 91 then
      if (cutByte 93 hostport).2.2 = false then none
      else
        let close := (cutByte 93 hostport).1.length
        if close + 1 = hostport.length then none
        else if close + 1 = before.length then
          if containsByte 91 (hostport.drop 1) then none
          else if containsByte 93 (hostport.drop (close + 1)) then none
          else some ((hostport.take close).drop 1, port)
        else none
    else if containsByte 58 before then none
    else if containsByte 91 hostport then none
    else if containsByte 93 hostport then none
    else some (before, port)

/-- The pattern `hasScheme`, `^([a-z][a-z0-9+\-.]*)://`: a lowercase letter, then
lowercase letters, digits, `+`, `-` and `.`, then `://`. -/
def hasScheme (s : GoString) : Bool :=
  match s with
  | [] => false
  | c :: rest =>
    decide (97 ≤ c.val ∧ c.val ≤ 122) &&
      ([58, 47, 47] : GoString).isPrefixOf
        (rest.dropWhile (fun d =>
          decide (97 ≤ d.val ∧ d.val ≤ 122) || isDigit d ||
            decide (d.val = 43) || decide (d.val = 45) || decide (d.val = 46)))

/-- The constant `schemeHTTP`. -/
def schemeHTTP : GoString := ascii "http"

/-- The function `makeURL`. -/
def makeURL (defaultScheme defaultPath rawURL : GoString) (defaultPort : Int) :
    Except Err GoString :=
  let defaultScheme := if defaultScheme = [] then schemeHTTP else defaultScheme
  let rawURL := if hasScheme rawURL = false then defaultScheme ++ [58, 47, 47] ++ rawURL
    else rawURL
  match urlParse rawURL with
  | .error err => .error err
  | .ok addr =>
    let scheme := addr.Scheme
    let host0 := addr.Host
    let port0 := itoa defaultPort
    let host1 : GoString :=
      if host0 = [] then ascii "localhost"
      else
        match splitHostPort host0 with
        | some (splitHost, _) => splitHost
        | none => host0
    let port : GoString :=
      if host0 = [] then port0
      else
        match splitHostPort host0 with
        | some (_, splitPort) => splitPort
        | none => port0
    let host : GoString :=
      if host0 = [] then host1
      else if countByte 58 host1 > 1 ∧ countByte 93 host1 = 0 then [91] ++ host1 ++ [93]
      else host1
    let path := if addr.Path = [] then defaultPath else addr.Path
    .ok (URL.String { addr with Path := path, Scheme := scheme, Host := host ++ [58] ++ port })

/-! ## Elasticsearch configuration (`internal/pkg/config/output.go`) -/

/-- One second as a `time.Duration`. -/
def second : Int := 1000000000

/-- The constant `httpTransportLongPollTimeout = 10 * time.Minute`. -/
def httpTransportLongPollTimeout : Int := 10 * (60 * second)

/-- The functions of `elastic-agent-libs` that `output.go` calls and that are taken
as parameters: `urlutil.ParseURL` and `tlscommon.LoadTLSConfig`, each with the
error it returns (`none` is nil), and the canonical form of a header key
(`textproto.CanonicalMIMEHeaderKey`, used by `http.Header`). -/
structure ConfigLib where
  parseURL : GoString → Option Err
  loadTLSConfig : TLSConfig → Option Err
  canonicalHeaderKey : GoString → GoString

/-- The method `tlscommon.Config.IsEnabled`, on a receiver that may be nil. -/
def TLSIsEnabled (tls : Option TLSConfig) : Bool :=
  match tls with
  | none => false
  | some cfg =>
    match cfg.Enabled with
    | none => true
    | some b => b

/-- The method `Elasticsearch.InitDefaults`. -/
def Elasticsearch.InitDefaults (c : Elasticsearch) : Elasticsearch :=
  { c with
    Protocol := schemeHTTP
    Hosts := [ascii "localhost:9200"]
    Timeout := 90 * second
    MaxRetries := 3
    MaxConnPerHost := 128
    MaxContentLength := 100 * 1024 * 1024 }

/-- The method `Elasticsearch.Validate`; `none` is a nil error. -/
def Elasticsearch.Validate (lib : ConfigLib) (c : Elasticsearch) : Option Err :=
  if c.APIKey ≠ [] then
    some (.errorf "cannot connect to elasticsearch with api_key; must use service_token")
  else
    match (if c.ProxyURL ≠ [] ∧ c.ProxyDisable = false then lib.parseURL c.ProxyURL
           else none) with
    | some err => some err
    | none =>
      match c.TLS with
      | some tls => if TLSIsEnabled (some tls) then lib.loadTLSConfig tls else none
      | none => none

/-- A Go `http.Header`: canonical keys with their values. -/
abbrev Header := List (GoString × List GoString)

/-- The method `http.Header.Set`. -/
def Header.set (lib : ConfigLib) (h : Header) (key val : GoString) : Header :=
  h.filter (fun e => decide (e.1 ≠ lib.canonicalHeaderKey key)) ++
    [(lib.canonicalHeaderKey key, [val])]

/-- The method `http.Header.Add`. -/
def Header.add (lib : ConfigLib) (h : Header) (key val : GoString) : Header :=
  if h.any (fun e => decide (e.1 = lib.canonicalHeaderKey key)) then
    h.map (fun e => if e.1 = lib.canonicalHeaderKey key then (e.1, e.2 ++ [val]) else e)
  else h ++ [(lib.canonicalHeaderKey key, [val])]

/-- The proxy function of an `http.Transport`: nil, `http.ProxyURL` of the parsed
`ProxyURL`, or `http.ProxyFromEnvironment`. -/
inductive ProxySetting where
  | unset
  | proxyURL (raw : GoString)
  | fromEnvironment
deriving DecidableEq, Repr

/-- The fields of `http.Transport` that `ToESConfig` sets; durations are in
nanoseconds, the TLS client configuration is given by the `tlscommon.Config` it
was loaded from. -/
structure Transport where
  DialTimeout : Int
  DialKeepAlive : Int
  TLSHandshakeTimeout : Int
  DisableKeepAlives : Bool
  DisableCompression : Bool
  MaxIdleConns : Int
  MaxIdleConnsPerHost : Int
  MaxConnsPerHost : Int
  IdleConnTimeout : Int
  ResponseHeaderTimeout : Int
  ExpectContinueTimeout : Int
  TLSClientConfig : Option TLSConfig
  Proxy : ProxySetting
  ProxyConnectHeader : Option Header
deriving DecidableEq, Repr

/-- The fields of `elasticsearch.Config` that `ToESConfig` sets. -/
structure ESConfig where
  Addresses : List GoString
  ServiceToken : GoString
  Header : Header
  Transport : Transport
  MaxRetries : Int
  DisableRetry : Bool
deriving DecidableEq, Repr

/-- The address loop of `ToESConfig`: `makeURL` on every host in order with
default port 9200; the first error ends it. -/
def makeAddrs (protocol path : GoString) : List GoString → Except Err (List GoString)
  | [] => .ok []
  | host :: hosts =>
    match makeURL protocol path host 9200 with
    | .error err => .error err
    | .ok addr =>
      match makeAddrs protocol path hosts with
      | .error err => .error err
      | .ok addrs => .ok (addr :: addrs)

/-- The method `Elasticsearch.ToESConfig`; the entries of the header maps are
visited in the order of their lists. -/
def Elasticsearch.ToESConfig (lib : ConfigLib) (c : Elasticsearch) (longPoll : Bool) :
    Except Err ESConfig :=
  match makeAddrs c.Protocol c.Path c.Hosts with
  | .error err => .error err
  | .ok addrs =>
    let httpTransport : Transport :=
      { DialTimeout := 10 * second
        DialKeepAlive := 30 * second
        TLSHandshakeTimeout := 10 * second
        DisableKeepAlives := false
        DisableCompression := false
        MaxIdleConns := 100
        MaxIdleConnsPerHost := 32
        MaxConnsPerHost := c.MaxConnPerHost
        IdleConnTimeout := 60 * second
        ResponseHeaderTimeout := c.Timeout
        ExpectContinueTimeout := 1 * second
        TLSClientConfig := none
        Proxy := .unset
        ProxyConnectHeader := none }
    let disableRetry : Bool := if longPoll then true else false
    let httpTransport1 : Transport :=
      if longPoll then
        { httpTransport with
          IdleConnTimeout := httpTransportLongPollTimeout
          ResponseHeaderTimeout := httpTransportLongPollTimeout }
      else httpTransport
    match (if TLSIsEnabled c.TLS then c.TLS.bind lib.loadTLSConfig else none) with
    | some err => .error err
    | none =>
      let httpTransport2 : Transport :=
        if TLSIsEnabled c.TLS then { httpTransport1 with TLSClientConfig := c.TLS }
        else httpTransport1
      match (if c.ProxyDisable = false ∧ c.ProxyURL ≠ [] then lib.parseURL c.ProxyURL
             else none) with
      | some err => .error err
      | none =>
        let httpTransport3 : Transport :=
          if c.ProxyDisable = false then
            { httpTransport2 with
              Proxy := if c.ProxyURL ≠ [] then .proxyURL c.ProxyURL else .fromEnvironment
              ProxyConnectHeader :=
                if c.ProxyHeaders.length > 0 then
                  some (c.ProxyHeaders.foldl (fun h kv => Header.add lib h kv.1 kv.2) [])
                else none }
          else httpTransport2
        let h : Header := c.Headers.foldl (fun h kv => Header.set lib h kv.1 kv.2) []
        .ok
          { Addresses := addrs
            ServiceToken := c.ServiceToken
            Header := Header.set lib h (ascii "X-elastic-product-origin") (ascii "fleet")
            Transport := httpTransport3
            MaxRetries := c.MaxRetries
            DisableRetry := disableRetry }

/-- The zero `config.Elasticsearch`. -/
def Elasticsearch.zero : Elasticsearch :=
  { Protocol := [], Hosts := [], Path := [], Headers := [], APIKey := [],
    ServiceToken := [], ProxyURL := [], ProxyDisable := false, ProxyHeaders := [],
    TLS := none, MaxRetries := 0, MaxConnPerHost := 0, Timeout := 0,
    MaxContentLength := 0 }

/-- A `ConfigLib` for concrete inputs: every proxy URL parses, every TLS
configuration loads, header keys are kept as they are. -/
def exampleConfigLib : ConfigLib where
  parseURL := fun _ => none
  loadTLSConfig := fun _ => none
  canonicalHeaderKey := fun k => k

/-- A character that may follow the first letter of a URL scheme: a letter, a
digit, `+`, `-` or `.`. -/
def isSchemeChar (c : Byte) : Bool :=
  isAlpha c || isDigit c || decide (c.val = 43) || decide (c.val = 45) || decide (c.val = 46)

/-- A URL scheme as `url.Parse` reads it: a letter followed by scheme characters. -/
def validScheme (s : GoString) : Bool :=
  match s with
  | [] => false
  | c :: rest => isAlpha c && rest.all isSchemeChar

/-- A character of a plain DNS name: a letter, a digit, `-` or `.`. -/
def isDNSChar (c : Byte) : Bool :=
  isAlpha c || isDigit c || decide (c.val = 45) || decide (c.val = 46)

/-- A character of a DNS name with port: a DNS character or `:`. -/
def isHostPortChar (c : Byte) : Bool :=
  isDNSChar c || decide (c.val = 58)

/-! ## Coordination plane: unenroll scan and lease release

The coordinator package (`internal/pkg/coordinator/monitor.go`) is not among the
sources, only its integration test is; the definitions of this section follow
the specification.  Times and durations are in seconds. -/

/-- Modelled from the spec: the agent document of the coordinator, which is not
among the sources; §3 "Agent": identity, access credential ID, per-output
credential IDs, active flag, enrolled-at, last-checkin and updated-at
timestamps, assigned policy ID, and (when retired) unenrolled-at timestamp and
reason tag. -/
structure Coordinator.Agent where
  ID : GoString
  AccessAPIKeyID : GoString
  OutputAPIKeyIDs : List GoString
  Active : Bool
  EnrolledAt : Int
  LastCheckin : Int
  UpdatedAt : Int
  PolicyID : GoString
  UnenrolledAt : Option Int
  UnenrolledReason : GoString
deriving DecidableEq, Repr

/-- Modelled from the spec: the policy document of the coordinator, which is not
among the sources; §3 "Policy": policy ID, revision index, coordinator index and
unenroll-timeout in seconds (0 = disabled). -/
structure Coordinator.Policy where
  PolicyID : GoString
  RevisionIdx : Int
  CoordinatorIdx : Int
  UnenrollTimeout : Int
deriving DecidableEq, Repr

/-- Modelled from the spec: the constant `unenrolledReasonTimeout` of the
coordinator package, which is not among the sources; §4.7 step 3a:
`UnenrolledReason := "timeout"`. -/
def unenrolledReasonTimeout : GoString := ascii "timeout"

/-- Modelled from the spec: the last activity of an agent, for the Unenroller that
is not among the sources; §3: `lastActivity = max(LastCheckin, UpdatedAt,
EnrolledAt)`. -/
def Coordinator.lastActivity (a : Coordinator.Agent) : Int :=
  max a.LastCheckin (max a.UpdatedAt a.EnrolledAt)

/-- Modelled from the spec: the test of the Unenroller scan, which is not among the
sources; §4.7 steps 1 to 3: the agent is a candidate when `PolicyID == P` and
`Active == true`, and it is retired when `idle = now - lastActivity` is at least
`UnenrollTimeout`. -/
def Coordinator.isStale (p : Coordinator.Policy) (now : Int) (a : Coordinator.Agent) : Bool :=
  decide (a.PolicyID = p.PolicyID) && a.Active &&
    decide (now - Coordinator.lastActivity a ≥ p.UnenrollTimeout)

/-- Modelled from the spec: the update of the Unenroller scan, which is not among
the sources; §4.7 step 3a: `Active := false`, `UnenrolledAt := now`,
`UnenrolledReason := "timeout"`. -/
def Coordinator.markInactive (now : Int) (a : Coordinator.Agent) : Coordinator.Agent :=
  { a with Active := false, UnenrolledAt := some now,
           UnenrolledReason := unenrolledReasonTimeout }

/-- Modelled from the spec: the agents one Unenroller scan retires, for the
Unenroller that is not among the sources; §4.7: a scan runs for an owned policy
with `UnenrollTimeout > 0` and retires the stale agents among those it reads. -/
def Coordinator.unenrollTargets (p : Coordinator.Policy) (now : Int)
    (agents : List Coordinator.Agent) : List Coordinator.Agent :=
  if p.UnenrollTimeout > 0 then agents.filter (Coordinator.isStale p now) else []

/-- Modelled from the spec: the agent documents after one Unenroller scan, for the
Unenroller that is not among the sources; §4.7: the stale agents of a policy
with `UnenrollTimeout > 0` are updated, every other document is left as it is. -/
def Coordinator.unenrollScan (p : Coordinator.Policy) (now : Int)
    (agents : List Coordinator.Agent) : List Coordinator.Agent :=
  if p.UnenrollTimeout > 0 then
    agents.map (fun a => if Coordinator.isStale p now a then Coordinator.markInactive now a
      else a)
  else agents

/-- Modelled from the spec: the credentials one Unenroller scan sends to the
revocation interface, for the Unenroller that is not among the sources; §4.7
step 3b: the access credential ID and every per-output credential ID of each
retired agent. -/
def Coordinator.unenrollInvalidations (p : Coordinator.Policy) (now : Int)
    (agents : List Coordinator.Agent) : List GoString :=
  (Coordinator.unenrollTargets p now agents).flatMap
    (fun a => a.AccessAPIKeyID :: a.OutputAPIKeyIDs)

/-- Modelled from the spec: the leader document of a policy, for the leader
election that is not among the sources; §3 "PolicyLeader": server ID of the
current holder and the timestamp of its last heartbeat, keyed by policy ID. -/
structure Coordinator.PolicyLeader where
  Server : GoString
  Timestamp : Int
deriving DecidableEq, Repr

/-- Modelled from the spec: the release of the leases at shutdown, for the monitor
loop that is not among the sources; §4.5 and §4.8 step 5: on cancellation, for
every policy the server leads a final record is written with the server ID
retained and the timestamp set back by the release horizon; the records of
other policies are left as they are. -/
def Coordinator.releaseLeadership (self : GoString) (now horizon : Int)
    (led : List GoString) (leaders : GoString → Option Coordinator.PolicyLeader) :
    GoString → Option Coordinator.PolicyLeader :=
  fun policyID =>
    if policyID ∈ led then some { Server := self, Timestamp := now - horizon }
    else leaders policyID

/-- A policy with an unenroll timeout of 5 seconds, as in `TestMonitorUnenroller`. -/
def examplePolicy : Coordinator.Policy :=
  { PolicyID := [112], RevisionIdx := 1, CoordinatorIdx := 0, UnenrollTimeout := 5 }

/-- An active agent of `examplePolicy` whose timestamps are all 1000. -/
def exampleStaleAgent : Coordinator.Agent :=
  { ID := [97], AccessAPIKeyID := [107], OutputAPIKeyIDs := [[111]], Active := true,
    EnrolledAt := 1000, LastCheckin := 1000, UpdatedAt := 1000, PolicyID := [112],
    UnenrolledAt := none, UnenrolledReason := [] }

/-! ## Lemmas on the decoders -/

theorem fromHexChar_isSome (c : Byte) : (fromHexChar c).isSome = isHexDigit c := by
  unfold fromHexChar isHexDigit
  split_ifs <;> simp_all

/-- Decoding succeeds exactly on an even number of hexadecimal digits. -/
theorem hexDecodeString_ok_iff (s : GoString) :
    (∃ bs, hexDecodeString s = .ok bs) ↔
      s.length % 2 = 0 ∧ ∀ c ∈ s, isHexDigit c = true := by
  induction s using hexDecodeString.induct with
  | case1 => simp [hexDecodeString]
  | case2 p h => simp [hexDecodeString, h]
  | case3 p n h => simp [hexDecodeString, h]
  | case4 p q rest h =>
    have hp := fromHexChar_isSome p
    simp [hexDecodeString, h] at hp ⊢
    intro _ h1
    simp [h1] at hp
  | case5 p q rest a ha h =>
    have hq := fromHexChar_isSome q
    simp [hexDecodeString, ha, h] at hq ⊢
    intro _ _ h1
    simp [h1] at hq
  | case6 p q rest a ha b hb e he ih =>
    have hp := fromHexChar_isSome p
    have hq := fromHexChar_isSome q
    simp [ha] at hp
    simp [hb] at hq
    simp [hexDecodeString, ha, hb, he] at ih ⊢
    intro h1 _ _
    exact ih (by omega)
  | case7 p q rest a ha b hb bs hbs ih =>
    have hp := fromHexChar_isSome p
    have hq := fromHexChar_isSome q
    simp [ha] at hp
    simp [hb] at hq
    simp [hexDecodeString, ha, hb, hbs] at ih ⊢
    refine ⟨by omega, hp, hq, ih.2⟩

theorem validateSha2String_eq_none_iff (s : GoString) :
    validateSha2String s = none ↔ s.length = 64 ∧ ∀ c ∈ s, isHexDigit c = true := by
  unfold validateSha2String
  by_cases hl : s.length = 64
  · have h := hexDecodeString_ok_iff s
    simp only [hl, ne_eq, not_true_eq_false, if_false, true_and]
    cases hd : hexDecodeString s with
    | error e =>
      simp only [hd] at h
      simp at h ⊢
      exact h (by omega)
    | ok bs =>
      simp only [hd] at h
      simp at h ⊢
      exact h.2
  · simp [hl]

theorem validateSha2String_cases (s : GoString) :
    validateSha2String s = none ∨ validateSha2String s = some .ErrorBadSha2 := by
  unfold validateSha2String
  split_ifs
  · simp
  · cases hexDecodeString s <;> simp

/-- A map that has the key `elasticsearch` and at most one entry has exactly that
key. -/
theorem keys_eq_singleton_of_lookup {V : Type} (m : GoMap V)
    (hk : (m.lookup elasticsearchKey).isSome = true) (hlen : m.entries.length ≤ 1) :
    m.keys = [elasticsearchKey] := by
  have hmem : elasticsearchKey ∈ m.keys := by
    rw [← AList.mem_keys, ← AList.lookup_isSome]
    exact hk
  have hl : m.keys.length ≤ 1 := by
    simpa [AList.keys, List.keys] using hlen
  match hm : m.keys, hmem, hl with
  | [k], hmem, _ =>
    simp at hmem
    simp [hmem]
  | _ :: _ :: _, _, hl => simp at hl

/-! ## Round trips of the encodings -/

theorem fromHexChar_hexDigit (n : Fin 16) : fromHexChar (hexDigit n.val) = some n.val := by
  revert n
  decide

theorem byte_of_nibbles (b : Byte) : (Fin.ofNat (b.val / 16 * 16 + b.val % 16) : Byte) = b := by
  apply Fin.ext
  simp only [Fin.ofNat, Fin.val_mk]
  omega

/-- Hex decoding inverts hex encoding. -/
theorem hexDecodeString_hexEncodeToString (bs : List Byte) :
    hexDecodeString (hexEncodeToString bs) = .ok bs := by
  induction bs with
  | nil => rfl
  | cons b bs ih =>
    have h1 := fromHexChar_hexDigit ⟨b.val / 16, by omega⟩
    have h2 := fromHexChar_hexDigit ⟨b.val % 16, by omega⟩
    simp only [Fin.val_mk] at h1 h2
    simp only [hexEncodeToString, hexDecodeString, h1, h2, ih, byte_of_nibbles]

theorem b64Value_b64Char (n : Fin 64) : b64Value (b64Char n.val) = some n.val := by
  revert n
  decide

theorem quantumBytes_three (b0 b1 b2 : Byte) :
    quantumBytes ((b0.val * 65536 + b1.val * 256 + b2.val) / 262144 % 64)
      ((b0.val * 65536 + b1.val * 256 + b2.val) / 4096 % 64)
      ((b0.val * 65536 + b1.val * 256 + b2.val) / 64 % 64)
      ((b0.val * 65536 + b1.val * 256 + b2.val) % 64) = [b0, b1, b2] := by
  have h0 := b0.isLt
  have h1 := b1.isLt
  have h2 := b2.isLt
  simp only [quantumBytes, List.cons.injEq, and_true]
  refine ⟨?_, ?_, ?_⟩ <;> apply Fin.ext <;> simp only [Fin.ofNat, Fin.val_mk] <;> omega

theorem quantumBytes_two (b0 b1 : Byte) :
    (quantumBytes ((b0.val * 65536 + b1.val * 256) / 262144 % 64)
      ((b0.val * 65536 + b1.val * 256) / 4096 % 64)
      ((b0.val * 65536 + b1.val * 256) / 64 % 64) 0).take 2 = [b0, b1] := by
  have h0 := b0.isLt
  have h1 := b1.isLt
  simp only [quantumBytes, List.take, List.cons.injEq, and_true]
  refine ⟨?_, ?_⟩ <;> apply Fin.ext <;> simp only [Fin.ofNat, Fin.val_mk] <;> omega

theorem quantumBytes_one (b0 : Byte) :
    (quantumBytes ((b0.val * 65536) / 262144 % 64) ((b0.val * 65536) / 4096 % 64) 0 0).take 1
      = [b0] := by
  have h0 := b0.isLt
  simp only [quantumBytes, List.take, List.cons.injEq, and_true]
  apply Fin.ext
  simp only [Fin.ofNat, Fin.val_mk]
  omega

/-- Base64 decoding inverts base64 encoding. -/
theorem base64DecodeString_base64EncodeToString (raw : List Byte) :
    base64DecodeString (base64EncodeToString raw) = .ok raw := by
  unfold base64DecodeString
  induction raw using base64EncodeToString.induct with
  | case1 => rfl
  | case2 b0 =>
    have v0 := b64Value_b64Char ⟨(b0.val * 65536) / 262144 % 64, by omega⟩
    have v1 := b64Value_b64Char ⟨(b0.val * 65536) / 4096 % 64, by omega⟩
    have hp : b64Value (61 : Byte) = none := by decide
    simp only [Fin.val_mk] at v0 v1
    have h61 : ((61 : Byte) : Nat) = 61 := rfl
    have hq := quantumBytes_one b0
    simp [base64EncodeToString, base64DecodeAux, v0, v1, hp, skipNewlines, h61, hq]
  | case3 b0 b1 =>
    have v0 := b64Value_b64Char ⟨(b0.val * 65536 + b1.val * 256) / 262144 % 64, by omega⟩
    have v1 := b64Value_b64Char ⟨(b0.val * 65536 + b1.val * 256) / 4096 % 64, by omega⟩
    have v2 := b64Value_b64Char ⟨(b0.val * 65536 + b1.val * 256) / 64 % 64, by omega⟩
    have hp : b64Value (61 : Byte) = none := by decide
    simp only [Fin.val_mk] at v0 v1 v2
    have h61 : ((61 : Byte) : Nat) = 61 := rfl
    have hq := quantumBytes_two b0 b1
    simp [base64EncodeToString, base64DecodeAux, v0, v1, v2, hp, skipNewlines, h61, hq]
  | case4 b0 b1 b2 rest ih =>
    have v0 := b64Value_b64Char
      ⟨(b0.val * 65536 + b1.val * 256 + b2.val) / 262144 % 64, by omega⟩
    have v1 := b64Value_b64Char
      ⟨(b0.val * 65536 + b1.val * 256 + b2.val) / 4096 % 64, by omega⟩
    have v2 := b64Value_b64Char
      ⟨(b0.val * 65536 + b1.val * 256 + b2.val) / 64 % 64, by omega⟩
    have v3 := b64Value_b64Char
      ⟨(b0.val * 65536 + b1.val * 256 + b2.val) % 64, by omega⟩
    simp only [Fin.val_mk] at v0 v1 v2 v3
    have hq := quantumBytes_three b0 b1 b2
    simp only [base64EncodeToString, base64DecodeAux, v0, v1, v2, v3, ih, List.nil_append,
      List.cons_append, hq]

/-! ## Lemmas on the artifact path -/

theorem validateSha2Data_eq_none_iff (lib : Lib) (data : List Byte) (sha2 : GoString) :
    validateSha2Data lib data sha2 = none ↔ hexDecodeString sha2 = .ok (lib.sha256 data) := by
  unfold validateSha2Data
  cases hexDecodeString sha2 with
  | error e => simp
  | ok src =>
    by_cases h : lib.sha256 data = src
    · simp [h]
    · simp only [ne_eq, h, not_false_eq_true, if_true, Except.ok.injEq]
      constructor
      · intro h1; cases h1
      · intro h1; exact absurd h1.symm h

theorem validateSha2Data_mismatch (lib : Lib) (data : List Byte) (sha2 : GoString)
    (digest : List Byte) (hhex : hexDecodeString sha2 = .ok digest)
    (hne : lib.sha256 data ≠ digest) :
    validateSha2Data lib data sha2 = some .ErrorMismatchSha2 := by
  simp [validateSha2Data, hhex, hne]

theorem fetchArtifact_no_token (env : Collab) (s : State) (ident sha2 : GoString)
    (h : env.acquire sha2 defaultThrottleTTL = false) :
    fetchArtifact env s ident sha2 =
      (.error .ErrorThrottle, s.log (.throttleAcquire sha2 defaultThrottleTTL)) := by
  simp [fetchArtifact, h]

theorem fetchArtifact_found (env : Collab) (s : State) (ident sha2 : GoString)
    (rec : Artifact) (h : env.acquire sha2 defaultThrottleTTL = true)
    (hf : env.findArtifact ident sha2 = .ok rec) :
    fetchArtifact env s ident sha2 =
      (.ok rec, ((s.log (.throttleAcquire sha2 defaultThrottleTTL)).log
        (.findArtifact ident sha2)).log .tokenRelease) := by
  simp [fetchArtifact, h, hf]

theorem fetchArtifact_cache (env : Collab) (s : State) (ident sha2 : GoString) :
    (fetchArtifact env s ident sha2).2.cache = s.cache := by
  unfold fetchArtifact
  by_cases h : env.acquire sha2 defaultThrottleTTL = false
  · simp [h, State.log]
  · cases hf : env.findArtifact ident sha2 <;> simp [h, hf, State.log]

theorem cacheSound_set (lib : Lib) (c : List Artifact) (admitted : Bool) (a : Artifact)
    (hc : CacheSound lib c)
    (ha : hexDecodeString a.EncodedSha256 = .ok (lib.sha256 a.Body)) :
    CacheSound lib (cacheSetArtifact c admitted a) := by
  intro x hx
  unfold cacheSetArtifact at hx
  cases admitted with
  | false => exact hc x (by simpa using hx)
  | true =>
    simp only [if_true, List.mem_cons, List.mem_filter] at hx
    rcases hx with rfl | ⟨hx, _⟩
    · exact ha
    · exact hc x hx

theorem cacheSound_filter (lib : Lib) (c : List Artifact) (keep : Artifact → Bool)
    (hc : CacheSound lib c) : CacheSound lib (c.filter keep) :=
  fun a ha => hc a (List.mem_filter.mp ha).1

theorem cacheGetArtifact_mem (c : List Artifact) (ident sha2 : GoString) (a : Artifact)
    (h : cacheGetArtifact c ident sha2 = some a) : a ∈ c :=
  List.mem_of_find?_eq_some h

/-- The function `getArtifact` keeps the cache sound and returns only artifacts that carry
the digest of their body. -/
theorem getArtifact_sound (lib : Lib) (env : Collab) (s : State) (ident sha2 : GoString)
    (hs : CacheSound lib s.cache) :
    CacheSound lib (getArtifact lib env s ident sha2).2.cache ∧
    ∀ art, (getArtifact lib env s ident sha2).1 = .ok art →
      hexDecodeString art.EncodedSha256 = .ok (lib.sha256 art.Body) := by
  unfold getArtifact
  cases hget : cacheGetArtifact s.cache ident sha2 with
  | some a =>
    refine ⟨by simpa [State.log] using hs, ?_⟩
    intro art hart
    simp at hart
    subst hart
    exact hs a (cacheGetArtifact_mem _ _ _ _ hget)
  | none =>
    have hfc := fetchArtifact_cache env (s.log (.cacheGet ident sha2)) ident sha2
    simp only
    rcases hfe : fetchArtifact env (s.log (.cacheGet ident sha2)) ident sha2 with ⟨r, s2⟩
    rw [hfe] at hfc
    have hs2 : CacheSound lib s2.cache := by
      simp only [State.log] at hfc
      rw [hfc]
      exact hs
    cases r with
    | error e => exact ⟨hs2, by simp⟩
    | ok rec =>
      simp only
      cases hj : lib.jsonUnmarshalString rec.Body with
      | none => exact ⟨hs2, by simp⟩
      | some src =>
        simp only
        cases hb : base64DecodeString src with
        | error e => exact ⟨hs2, by simp⟩
        | ok dst =>
          simp only
          cases hv : validateSha2Data lib dst rec.EncodedSha256 with
          | some e => exact ⟨hs2, by simp⟩
          | none =>
            have hok := (validateSha2Data_eq_none_iff lib dst rec.EncodedSha256).mp hv
            simp only
            refine ⟨cacheSound_set lib _ _ _ hs2 hok, ?_⟩
            intro art hart
            simp at hart
            subst hart
            exact hok

theorem processRequest_cache_sound (lib : Lib) (env : Collab) (s : State) (agent : Agent)
    (id sha2 : GoString) (hs : CacheSound lib s.cache) :
    CacheSound lib (processRequest lib env s agent id sha2).2.cache := by
  unfold processRequest
  cases validateSha2String sha2 with
  | some e => exact hs
  | none =>
    simp only [authorizeArtifact]
    have h := (getArtifact_sound lib env s id sha2 hs).1
    rcases hg : getArtifact lib env s id sha2 with ⟨r, s1⟩
    rw [hg] at h
    cases r with
    | error e => exact h
    | ok a =>
      simp only
      split_ifs <;> exact h

theorem run_cache_sound (lib : Lib) (steps : List Step) (s : State)
    (hs : CacheSound lib s.cache) : CacheSound lib (run lib steps s).cache := by
  induction steps generalizing s with
  | nil => exact hs
  | cons st steps ih =>
    apply ih
    cases st with
    | request env agent id sha2 => exact processRequest_cache_sound lib env s agent id sha2 hs
    | evict keep => exact cacheSound_filter lib s.cache keep hs

theorem base64DecodeAux_error (s : GoString) (pend : List Nat) (e : Err)
    (h : base64DecodeAux s pend = .error e) : e = .base64CorruptInput := by
  induction s, pend using base64DecodeAux.induct <;> simp_all [base64DecodeAux]

theorem processRequest_valid (lib : Lib) (env : Collab) (s : State) (agent : Agent)
    (id sha2 : GoString) (hv : validateSha2String sha2 = none) :
    processRequest lib env s agent id sha2 =
      match getArtifact lib env s id sha2 with
      | (.error err, s1) => (.error err, s1)
      | (.ok artifact, s1) =>
        if artifact.Identifier ≠ id ∨ artifact.DecodedSha256 ≠ sha2 then
          (.error .ErrorRecord, s1)
        else
          (.ok artifact.Body, s1) := by
  simp [processRequest, hv, authorizeArtifact]

theorem processRequest_invalid (lib : Lib) (env : Collab) (s : State) (agent : Agent)
    (id sha2 : GoString)
    (hbad : ¬ (sha2.length = 64 ∧ ∀ c ∈ sha2, isHexDigit c = true)) :
    processRequest lib env s agent id sha2 = (.error .ErrorBadSha2, s) := by
  have h : validateSha2String sha2 = some .ErrorBadSha2 := by
    rcases validateSha2String_cases sha2 with h | h
    · exact absurd ((validateSha2String_eq_none_iff sha2).mp h) hbad
    · exact h
  simp [processRequest, h]

/-- The state after a cache miss followed by a successful fetch. -/
theorem getArtifact_fetched (lib : Lib) (env : Collab) (s : State) (ident sha2 : GoString)
    (rec : Artifact)
    (hmiss : cacheGetArtifact s.cache ident sha2 = none)
    (htok : env.acquire sha2 defaultThrottleTTL = true)
    (hfind : env.findArtifact ident sha2 = .ok rec) :
    getArtifact lib env s ident sha2 =
      match lib.jsonUnmarshalString rec.Body with
      | none => (.error .jsonError,
          { cache := s.cache,
            trace := s.trace ++ [.cacheGet ident sha2,
              .throttleAcquire sha2 defaultThrottleTTL, .findArtifact ident sha2,
              .tokenRelease] })
      | some srcPayload =>
        match base64DecodeString srcPayload with
        | .error err => (.error err,
            { cache := s.cache,
              trace := s.trace ++ [.cacheGet ident sha2,
                .throttleAcquire sha2 defaultThrottleTTL, .findArtifact ident sha2,
                .tokenRelease] })
        | .ok dstPayload =>
          match validateSha2Data lib dstPayload rec.EncodedSha256 with
          | some err => (.error err,
              { cache := s.cache,
                trace := s.trace ++ [.cacheGet ident sha2,
                  .throttleAcquire sha2 defaultThrottleTTL, .findArtifact ident sha2,
                  .tokenRelease] })
          | none =>
            (.ok { rec with Body := dstPayload },
              { cache := cacheSetArtifact s.cache
                  (env.cacheAdmits { rec with Body := dstPayload })
                  { rec with Body := dstPayload },
                trace := s.trace ++ [.cacheGet ident sha2,
                  .throttleAcquire sha2 defaultThrottleTTL, .findArtifact ident sha2,
                  .tokenRelease, .cacheSet { rec with Body := dstPayload }] }) := by
  unfold getArtifact
  rw [hmiss]
  simp only
  rw [fetchArtifact_found env _ ident sha2 rec htok hfind]
  simp only [State.log, List.append_assoc, List.cons_append, List.nil_append]

theorem cacheGetArtifact_key (c : List Artifact) (ident sha2 : GoString) (a : Artifact)
    (h : cacheGetArtifact c ident sha2 = some a) :
    a.Identifier = ident ∧ a.DecodedSha256 = sha2 := by
  have := List.find?_some h
  simpa using this

theorem validateSha2Data_ne_ErrorRecord (lib : Lib) (data : List Byte) (sha2 : GoString) :
    validateSha2Data lib data sha2 ≠ some .ErrorRecord := by
  intro hval
  unfold validateSha2Data at hval
  split at hval
  · cases hval
  · split_ifs at hval
    cases hval

/-- The transport timeouts and the retry flag of every configuration that
`ToESConfig` returns. -/
theorem ToESConfig_timeouts (lib : ConfigLib) (c : Elasticsearch) (longPoll : Bool)
    (cfg : ESConfig) (h : c.ToESConfig lib longPoll = .ok cfg) :
    cfg.DisableRetry = longPoll ∧
    cfg.Transport.ResponseHeaderTimeout =
      (if longPoll then httpTransportLongPollTimeout else c.Timeout) ∧
    cfg.Transport.IdleConnTimeout =
      (if longPoll then httpTransportLongPollTimeout else 60 * second) := by
  unfold Elasticsearch.ToESConfig at h
  split at h
  · cases h
  · simp only at h
    split at h
    · cases h
    · split at h
      · cases h
      · simp only [Except.ok.injEq] at h
        subst h
        cases longPoll <;> simp <;> split_ifs <;> simp

/-! ## Lemmas on the string functions -/

set_option maxRecDepth 20000

theorem cutByte_absent (sep : Nat) (s : GoString) (h : ∀ c ∈ s, c.val ≠ sep) :
    cutByte sep s = (s, [], false) := by
  induction s with
  | nil => rfl
  | cons c cs ih =>
    have hc := h c (List.mem_cons_self _ _)
    have ih2 := ih (fun d hd => h d (List.mem_cons_of_mem _ hd))
    simp [cutByte, hc, ih2]

theorem cutLastByte_absent (sep : Nat) (s : GoString) (h : ∀ c ∈ s, c.val ≠ sep) :
    cutLastByte sep s = none := by
  induction s with
  | nil => rfl
  | cons c cs ih =>
    have hc := h c (List.mem_cons_self _ _)
    have ih2 := ih (fun d hd => h d (List.mem_cons_of_mem _ hd))
    simp [cutLastByte, hc, ih2]

theorem cutLastByte_append (sep : Nat) (a b : GoString) (x : Byte) (hx : x.val = sep)
    (hb : ∀ c ∈ b, c.val ≠ sep) :
    cutLastByte sep (a ++ x :: b) = some (a, b) := by
  induction a with
  | nil => simp [cutLastByte, cutLastByte_absent sep b hb, hx]
  | cons c cs ih => simp [cutLastByte, ih]

theorem containsByte_absent (sep : Nat) (s : GoString) (h : ∀ c ∈ s, c.val ≠ sep) :
    containsByte sep s = false := by
  simp only [containsByte, List.any_eq_false, decide_eq_true_eq]
  exact h

theorem countByte_absent (sep : Nat) (s : GoString) (h : ∀ c ∈ s, c.val ≠ sep) :
    countByte sep s = 0 := by
  simp only [countByte, List.countP_eq_zero, decide_eq_true_eq]
  exact h

theorem toLowerASCII_ne_nil (s : GoString) (h : s ≠ []) : toLowerASCII s ≠ [] := by
  cases s with
  | nil => exact absurd rfl h
  | cons c cs => simp [toLowerASCII]

/-- The scan of `getScheme` over scheme characters that end in a colon. -/
theorem getSchemeAux_scheme (s : GoString) :
    ∀ (acc rest : GoString) (colon : Byte), colon.val = 58 →
      (∀ c ∈ s, isSchemeChar c = true) →
      (acc = [] → ∃ c cs, s = c :: cs ∧ isAlpha c = true) →
      getSchemeAux acc (s ++ colon :: rest) = .ok (acc ++ s, rest) := by
  induction s with
  | nil =>
    intro acc rest colon hcolon _ hacc
    have hne : acc ≠ [] := by
      intro h
      obtain ⟨c, cs, hs, _⟩ := hacc h
      cases hs
    have h1 : isAlpha colon = false := by simp [isAlpha, hcolon]
    have h2 : isDigit colon = false := by simp [isDigit, hcolon]
    simp [getSchemeAux, h1, h2, hcolon, hne]
  | cons c cs ih =>
    intro acc rest colon hcolon hall hacc
    have hc : isSchemeChar c = true := hall c (List.mem_cons_self _ _)
    have hcs : ∀ d ∈ cs, isSchemeChar d = true := fun d hd => hall d (List.mem_cons_of_mem _ hd)
    have hnext := ih (acc ++ [c]) rest colon hcolon hcs (by simp)
    by_cases ha : isAlpha c = true
    · simp [getSchemeAux, ha, hnext]
    · have hne : acc ≠ [] := by
        intro h
        obtain ⟨c2, cs2, hs, hal⟩ := hacc h
        cases hs
        exact ha hal
      have hc2 : (isDigit c || decide (c.val = 43) || decide (c.val = 45) ||
          decide (c.val = 46)) = true := by
        simp only [isSchemeChar, Bool.or_assoc] at hc
        simp only [Bool.not_eq_true] at ha
        simp only [ha, Bool.false_or] at hc
        simpa [Bool.or_assoc] using hc
      simp only [Bool.not_eq_true] at ha
      simp only [List.cons_append, getSchemeAux, ha, hc2, hne, if_true, if_false,
        Bool.false_eq_true]
      simpa using hnext

theorem getScheme_valid (scheme rest : GoString) (h : validScheme scheme = true) :
    getScheme (scheme ++ 58 :: rest) = .ok (scheme, rest) := by
  cases scheme with
  | nil => simp [validScheme] at h
  | cons c cs =>
    simp only [validScheme, Bool.and_eq_true, List.all_eq_true] at h
    have hall : ∀ d ∈ c :: cs, isSchemeChar d = true := by
      intro d hd
      rcases List.mem_cons.mp hd with rfl | hd
      · simp [isSchemeChar, h.1]
      · exact h.2 d hd
    have := getSchemeAux_scheme (c :: cs) [] rest 58 rfl hall (fun _ => ⟨c, cs, rfl, h.1⟩)
    simpa [getScheme] using this

theorem isHostPortChar_facts (c : Byte) (h : isHostPortChar c = true) :
    shouldEscape c .encodeHost = false ∧ 32 ≤ c.val ∧ c.val < 127 ∧ c.val ≠ 35 ∧
    c.val ≠ 37 ∧ c.val ≠ 43 ∧ c.val ≠ 47 ∧ c.val ≠ 63 ∧ c.val ≠ 64 ∧ c.val ≠ 91 ∧
    c.val ≠ 93 := by
  revert c
  decide

theorem isSchemeChar_facts (c : Byte) (h : isSchemeChar c = true) :
    32 ≤ c.val ∧ c.val < 127 ∧ c.val ≠ 35 ∧ c.val ≠ 47 ∧ c.val ≠ 58 ∧ c.val ≠ 63 := by
  revert c
  decide

theorem isDNSChar_hostPort (c : Byte) (h : isDNSChar c = true) : isHostPortChar c = true := by
  simp [isHostPortChar, h]

theorem isDNSChar_ne_colon (c : Byte) (h : isDNSChar c = true) : c.val ≠ 58 := by
  revert c
  decide

theorem isDigit_isDNSChar (c : Byte) (h : isDigit c = true) : isDNSChar c = true := by
  simp [isDNSChar, h]

theorem unescape_host_id (s : GoString) (h : ∀ c ∈ s, isHostPortChar c = true) :
    unescape .encodeHost s = .ok s := by
  induction s with
  | nil => rfl
  | cons c cs ih =>
    have hc := isHostPortChar_facts c (h c (List.mem_cons_self _ _))
    have ih2 := ih (fun d hd => h d (List.mem_cons_of_mem _ hd))
    unfold unescape
    simp [hc.1, hc.2.2.2.2.1, hc.2.2.2.2.2.1, ih2]

theorem escape_host_id (s : GoString) (h : ∀ c ∈ s, isHostPortChar c = true) :
    escape .encodeHost s = s := by
  induction s with
  | nil => rfl
  | cons c cs ih =>
    have hc := isHostPortChar_facts c (h c (List.mem_cons_self _ _))
    have ih2 := ih (fun d hd => h d (List.mem_cons_of_mem _ hd))
    simp [escape, hc.1, ih2]

theorem escape_path_id (s : GoString) (h : ∀ c ∈ s, shouldEscape c .encodePath = false) :
    escape .encodePath s = s := by
  induction s with
  | nil => rfl
  | cons c cs ih =>
    have hc := h c (List.mem_cons_self _ _)
    have ih2 := ih (fun d hd => h d (List.mem_cons_of_mem _ hd))
    simp [escape, hc, ih2]

theorem escape_path_slash (rest : GoString) :
    escape .encodePath (47 :: rest) = 47 :: escape .encodePath rest := by
  have h : shouldEscape (47 : Byte) .encodePath = false := by decide
  have h47 : ((47 : Byte) : Nat) = 47 := rfl
  simp [escape, h, h47]

theorem digitChar_isDigit (d : Nat) (h : d < 10) :
    48 ≤ (Nat.digitChar d).toNat ∧ (Nat.digitChar d).toNat ≤ 57 := by
  interval_cases d <;> decide

theorem toDigitsCore_digits (fuel : Nat) :
    ∀ (n : Nat) (ds : List Char),
      (∀ c ∈ ds, 48 ≤ c.toNat ∧ c.toNat ≤ 57) →
      ∀ c ∈ Nat.toDigitsCore 10 fuel n ds, 48 ≤ c.toNat ∧ c.toNat ≤ 57 := by
  induction fuel with
  | zero =>
    intro n ds hds c hc
    simpa [Nat.toDigitsCore] using hds c (by simpa [Nat.toDigitsCore] using hc)
  | succ fuel ih =>
    intro n ds hds c hc
    have hd := digitChar_isDigit (n % 10) (Nat.mod_lt _ (by decide))
    have hds2 : ∀ c ∈ Nat.digitChar (n % 10) :: ds, 48 ≤ c.toNat ∧ c.toNat ≤ 57 := by
      intro c hc
      rcases List.mem_cons.mp hc with rfl | hc
      · exact hd
      · exact hds c hc
    simp only [Nat.toDigitsCore] at hc
    split_ifs at hc
    · exact hds2 c hc
    · exact ih _ _ hds2 c hc

theorem itoa_chars (n : Int) : ∀ c ∈ itoa n, isDNSChar c = true := by
  have key : ∀ (m : Nat) (c : Byte),
      c ∈ (Nat.toDigits 10 m).map (fun c => (Fin.ofNat c.toNat : Byte)) →
      isDNSChar c = true := by
    intro m c hc
    obtain ⟨ch, hch, rfl⟩ := List.mem_map.mp hc
    have hd := toDigitsCore_digits (m + 1) m [] (by simp) ch hch
    have hv : (Fin.ofNat ch.toNat : Byte).val = ch.toNat := by
      simp only [Fin.ofNat, Fin.val_mk]
      omega
    apply isDigit_isDNSChar
    simp only [isDigit, hv, Bool.and_eq_true, decide_eq_true_eq]
    exact hd
  intro c hc
  cases n with
  | ofNat m => exact key m c hc
  | negSucc m =>
    simp only [itoa, List.mem_cons] at hc
    rcases hc with rfl | hc
    · decide
    · exact key (m + 1) c hc

theorem head_ne_bracket (hp : GoString) (h : ∀ c ∈ hp, isHostPortChar c = true) :
    hp.head? ≠ some 91 := by
  cases hp with
  | nil => simp
  | cons c cs =>
    have hc := isHostPortChar_facts c (h c (List.mem_cons_self _ _))
    intro heq
    simp only [List.head?_cons, Option.some.injEq] at heq
    rw [heq] at hc
    exact hc.2.2.2.2.2.2.2.2.2.1 rfl

/-- A DNS name, alone or followed by a colon and a decimal port, is a host that
`parseHost` returns unchanged. -/
theorem parseHost_hostPort (hp : GoString) (h : ∀ c ∈ hp, isHostPortChar c = true)
    (hport : cutLastByte 58 hp = none ∨
      ∃ a b, cutLastByte 58 hp = some (a, b) ∧ validOptionalPort (hp.drop a.length) = true) :
    parseHost hp = .ok hp := by
  unfold parseHost
  rw [if_neg (head_ne_bracket hp h)]
  rcases hport with hn | ⟨a, b, hab, hv⟩
  · simp [hn, unescape_host_id hp h]
  · simp [hab, hv, unescape_host_id hp h]

theorem urlParse_scheme_host (scheme hp : GoString) (hs : validScheme scheme = true)
    (hh : ∀ c ∈ hp, isHostPortChar c = true) (hph : parseHost hp = .ok hp) :
    urlParse (scheme ++ 58 :: 47 :: 47 :: hp) =
      .ok { URL.empty with Scheme := toLowerASCII scheme, Host := hp } := by
  have hsc : ∀ c ∈ scheme, isSchemeChar c = true := by
    cases scheme with
    | nil => simp
    | cons c cs =>
      simp only [validScheme, Bool.and_eq_true, List.all_eq_true] at hs
      intro d hd
      rcases List.mem_cons.mp hd with rfl | hd
      · simp [isSchemeChar, hs.1]
      · exact hs.2 d hd
  have hne : scheme ≠ [] := by
    intro h
    rw [h] at hs
    simp [validScheme] at hs
  have hS : ∀ c ∈ scheme ++ 58 :: 47 :: 47 :: hp,
      32 ≤ c.val ∧ c.val < 127 ∧ c.val ≠ 35 ∧ c.val ≠ 63 := by
    intro c hc
    simp only [List.mem_append, List.mem_cons] at hc
    rcases hc with hc | rfl | rfl | rfl | hc
    · have := isSchemeChar_facts c (hsc c hc)
      exact ⟨this.1, this.2.1, this.2.2.1, this.2.2.2.2.2⟩
    · decide
    · decide
    · decide
    · have := isHostPortChar_facts c (hh c hc)
      exact ⟨this.2.1, this.2.2.1, this.2.2.2.1, this.2.2.2.2.2.2.2.1⟩
  have hrest : ∀ c ∈ (47 : Byte) :: 47 :: hp, c.val ≠ 63 := by
    intro c hc
    exact (hS c (List.mem_append_right _ (List.mem_cons_of_mem _ hc))).2.2.2
  have hctl : stringContainsCTLByte (scheme ++ 58 :: 47 :: 47 :: hp) = false := by
    simp only [stringContainsCTLByte, List.any_eq_false, Bool.or_eq_true, decide_eq_true_eq,
      not_or]
    intro c hc
    have := hS c hc
    omega
  have hstar : scheme ++ 58 :: 47 :: 47 :: hp ≠ [42] := by
    intro h
    have := congrArg List.length h
    simp at this
    omega
  have hcut35 := cutByte_absent 35 (scheme ++ 58 :: 47 :: 47 :: hp)
    (fun c hc => (hS c hc).2.2.1)
  have hcut63 := cutByte_absent 63 ((47 : Byte) :: 47 :: hp) hrest
  have hcnt63 := countByte_absent 63 ((47 : Byte) :: 47 :: hp) hrest
  have hcut47 := cutByte_absent 47 hp (fun c hc => (isHostPortChar_facts c (hh c hc)).2.2.2.2.2.2.1)
  have hcut64 := cutLastByte_absent 64 hp
    (fun c hc => (isHostPortChar_facts c (hh c hc)).2.2.2.2.2.2.2.2.1)
  have hlow := toLowerASCII_ne_nil scheme hne
  have hpa : parseAuthority hp = .ok (none, hp) := by
    simp [parseAuthority, hcut64, hph]
  have hsp : ∀ u : URL, URL.setPath u [] = .ok { u with Path := [], RawPath := [] } := by
    intro u
    simp [URL.setPath, unescape, escape]
  simp only [urlParse, hcut35, urlParseNoFragment, hctl, hstar, getScheme_valid scheme _ hs,
    hcnt63, hcut63, Bool.false_eq_true, if_false]
  simp [hlow, hcut47, hpa, hsp, URL.empty]

theorem hasScheme_no_slash (s : GoString) (h : ∀ c ∈ s, c.val ≠ 47) : hasScheme s = false := by
  cases s with
  | nil => rfl
  | cons c rest =>
    have hpre : ∀ l : GoString, (∀ d ∈ l, d.val ≠ 47) →
        ([58, 47, 47] : GoString).isPrefixOf l = false := by
      intro l hl
      match l with
      | [] => rfl
      | [_] => simp [List.isPrefixOf]
      | a :: b :: tl =>
        have hb := hl b (by simp)
        have hb2 : ((47 : Byte) == b) = false := by
          simp only [beq_eq_false_iff_ne, ne_eq]
          intro heq
          exact hb (by rw [← heq]; rfl)
        simp [List.isPrefixOf, hb2]
    have hdrop : ∀ d ∈ rest.dropWhile (fun d =>
        decide (97 ≤ d.val ∧ d.val ≤ 122) || isDigit d ||
          decide (d.val = 43) || decide (d.val = 45) || decide (d.val = 46)), d.val ≠ 47 := by
      intro d hd
      exact h d (List.mem_cons_of_mem _ ((List.dropWhile_suffix _).subset hd))
    simp only [hasScheme, hpre _ hdrop, Bool.and_false]

theorem splitHostPort_no_colon (hp : GoString) (h : ∀ c ∈ hp, c.val ≠ 58) :
    splitHostPort hp = none := by
  simp [splitHostPort, cutLastByte_absent 58 hp h]

theorem splitHostPort_host_port (host port : GoString)
    (hhost : ∀ c ∈ host, isDNSChar c = true) (hport : ∀ c ∈ port, isDigit c = true) :
    splitHostPort (host ++ 58 :: port) = some (host, port) := by
  have hall : ∀ c ∈ host ++ 58 :: port, isHostPortChar c = true := by
    intro c hc
    simp only [List.mem_append, List.mem_cons] at hc
    rcases hc with hc | rfl | hc
    · exact isDNSChar_hostPort c (hhost c hc)
    · decide
    · exact isDNSChar_hostPort c (isDigit_isDNSChar c (hport c hc))
  have hcut := cutLastByte_append 58 host port 58 rfl
    (fun c hc => isDNSChar_ne_colon c (isDigit_isDNSChar c (hport c hc)))
  have h58 := containsByte_absent 58 host (fun c hc => isDNSChar_ne_colon c (hhost c hc))
  have h91 := containsByte_absent 91 (host ++ 58 :: port)
    (fun c hc => (isHostPortChar_facts c (hall c hc)).2.2.2.2.2.2.2.2.2.1)
  have h93 := containsByte_absent 93 (host ++ 58 :: port)
    (fun c hc => (isHostPortChar_facts c (hall c hc)).2.2.2.2.2.2.2.2.2.2)
  simp only [splitHostPort, hcut, if_neg (head_ne_bracket _ hall), h58, h91, h93,
    Bool.false_eq_true, if_false]

/-- The text `URL.String` prints for a URL that has only a scheme, a host made of
DNS characters and colons, and a path that is empty or starts with a slash. -/
theorem URL_String_scheme_host_path (scheme host path : GoString) (hs : scheme ≠ [])
    (hh : ∀ c ∈ host, isHostPortChar c = true) (hne : host ≠ [])
    (hp : path = [] ∨ ∃ rest, path = 47 :: rest) :
    URL.String { URL.empty with Scheme := scheme, Host := host, Path := path } =
      scheme ++ 58 :: 47 :: 47 :: host ++ escape .encodePath path := by
  have hesc : URL.EscapedPath { URL.empty with Scheme := scheme, Host := host, Path := path } =
      escape .encodePath path := by
    have hstar : path ≠ [42] := by
      rcases hp with rfl | ⟨rest, rfl⟩
      · simp
      · intro h
        have := (List.cons.inj h).1
        exact absurd this (by decide)
    simp [URL.EscapedPath, URL.empty, hstar]
  have hslash : ¬ (escape .encodePath path ≠ [] ∧
      (escape .encodePath path).head? ≠ some 47 ∧ host ≠ []) := by
    rcases hp with rfl | ⟨rest, rfl⟩
    · simp [escape]
    · rw [escape_path_slash]
      simp
  have hslash2 : ¬ escape .encodePath path = [] →
      (escape .encodePath path).head? = some 47 := by
    intro h1
    by_contra h2
    exact hslash ⟨h1, h2, hne⟩
  simp only [URL.String, hesc]
  simp [URL.empty, hs, hne, escape_host_id host hh]
  exact hslash2

/-- The result of `makeURL` on a raw URL that is a DNS name, alone or with a
decimal port, in terms of what `net.SplitHostPort` makes of it. -/
theorem makeURL_core (ds dp hp h p : GoString) (defaultPort : Int)
    (hs : validScheme (if ds = [] then schemeHTTP else ds) = true)
    (hh : ∀ c ∈ hp, isHostPortChar c = true) (hne : hp ≠ [])
    (hph : parseHost hp = .ok hp)
    (hsplit : (match splitHostPort hp with
      | some (a, _) => a
      | none => hp) = h)
    (hsplitp : (match splitHostPort hp with
      | some (_, b) => b
      | none => itoa defaultPort) = p)
    (hhc : ∀ c ∈ h, isDNSChar c = true) (hpc : ∀ c ∈ p, isDNSChar c = true)
    (hpath : dp = [] ∨ ∃ rest, dp = 47 :: rest) :
    makeURL ds dp hp defaultPort =
      .ok (toLowerASCII (if ds = [] then schemeHTTP else ds) ++ 58 :: 47 :: 47 ::
        (h ++ 58 :: p) ++ escape .encodePath dp) := by
  have h47 : ∀ c ∈ hp, c.val ≠ 47 :=
    fun c hc => (isHostPortChar_facts c (hh c hc)).2.2.2.2.2.2.1
  have hparse := urlParse_scheme_host (if ds = [] then schemeHTTP else ds) hp hs hh hph
  have hraw : (if ds = [] then schemeHTTP else ds) ++ [58, 47, 47] ++ hp =
      (if ds = [] then schemeHTTP else ds) ++ 58 :: 47 :: 47 :: hp := by simp
  have hcount : countByte 58 h = 0 :=
    countByte_absent 58 h (fun c hc => isDNSChar_ne_colon c (hhc c hc))
  have hlow : toLowerASCII (if ds = [] then schemeHTTP else ds) ≠ [] := by
    apply toLowerASCII_ne_nil
    intro hnil
    rw [hnil] at hs
    simp [validScheme] at hs
  have hhost : ∀ c ∈ h ++ [58] ++ p, isHostPortChar c = true := by
    intro c hc
    simp only [List.mem_append, List.mem_cons, List.mem_singleton, List.not_mem_nil,
      or_false] at hc
    rcases hc with (hc | rfl) | hc
    · exact isDNSChar_hostPort c (hhc c hc)
    · decide
    · exact isDNSChar_hostPort c (hpc c hc)
  have hstr := URL_String_scheme_host_path (toLowerASCII (if ds = [] then schemeHTTP else ds))
    (h ++ [58] ++ p) dp hlow hhost (by simp) hpath
  unfold makeURL
  simp only [hasScheme_no_slash hp h47, if_true, hraw, hparse]
  simp only [URL.empty, hne, if_false, hsplit, hsplitp, hcount, if_true]
  simp only [URL.empty] at hstr
  simp only [gt_iff_lt, Nat.not_lt_zero, false_and, if_false]
  rw [hstr]
  simp

theorem toLowerASCII_id (s : GoString) (h : ∀ c ∈ s, ¬ (65 ≤ c.val ∧ c.val ≤ 90)) :
    toLowerASCII s = s := by
  induction s with
  | nil => rfl
  | cons c cs ih =>
    have hc := h c (List.mem_cons_self _ _)
    have ih2 := ih (fun d hd => h d (List.mem_cons_of_mem _ hd))
    simp only [toLowerASCII, List.map_cons, if_neg hc, List.cons.injEq, true_and]
    exact ih2

/-- The addresses `makeAddrs` returns are the results of `makeURL` on the hosts,
in order. -/
theorem makeAddrs_forall₂ (protocol path : GoString) (hosts addrs : List GoString)
    (h : makeAddrs protocol path hosts = .ok addrs) :
    List.Forall₂ (fun host addr => makeURL protocol path host 9200 = .ok addr) hosts addrs := by
  induction hosts generalizing addrs with
  | nil =>
    simp only [makeAddrs, Except.ok.injEq] at h
    subst h
    exact List.Forall₂.nil
  | cons host hosts ih =>
    unfold makeAddrs at h
    cases hm : makeURL protocol path host 9200 with
    | error e => simp [hm] at h
    | ok addr =>
      cases hr : makeAddrs protocol path hosts with
      | error e => simp [hm, hr] at h
      | ok rest =>
        simp only [hm, hr, Except.ok.injEq] at h
        subst h
        exact List.Forall₂.cons hm (ih rest hr)

theorem ToESConfig_addresses (lib : ConfigLib) (c : Elasticsearch) (longPoll : Bool)
    (cfg : ESConfig) (h : c.ToESConfig lib longPoll = .ok cfg) :
    makeAddrs c.Protocol c.Path c.Hosts = .ok cfg.Addresses := by
  unfold Elasticsearch.ToESConfig at h
  split at h
  · cases h
  · simp only at h
    split at h
    · cases h
    · split at h
      · cases h
      · simp only [Except.ok.injEq] at h
        subst h
        assumption

/-! ## Theorems for the claims -/

set_option maxRecDepth 20000

/-- C1: starting from the empty cache, after every sequence of `processRequest`
calls and evictions, with every behaviour of store, throttle and cache
admission: when `processRequest` returns a body without error, that body is the
`Body` of the artifact `getArtifact` served (from the cache or freshly fetched),
and SHA-256 of the body equals the hex-decoded `EncodedSha256` of that
artifact. -/
theorem C1_served_body_matches_EncodedSha256 (lib : Lib) (steps : List Step)
    (env : Collab) (agent : Agent) (id sha2 : GoString) (body : List Byte)
    (h : (processRequest lib env (run lib steps State.init) agent id sha2).1 = .ok body) :
    ∃ art, (getArtifact lib env (run lib steps State.init) id sha2).1 = .ok art ∧
      art.Body = body ∧
      hexDecodeString art.EncodedSha256 = .ok (lib.sha256 body) := by
  have hinit : CacheSound lib State.init.cache := by
    intro a ha
    cases ha
  have hs := run_cache_sound lib steps State.init hinit
  have hg := (getArtifact_sound lib env (run lib steps State.init) id sha2 hs).2
  unfold processRequest at h
  cases hv : validateSha2String sha2 with
  | some e => simp [hv] at h
  | none =>
    simp only [hv, authorizeArtifact] at h
    rcases hga : getArtifact lib env (run lib steps State.init) id sha2 with ⟨r, s1⟩
    rw [hga] at h hg
    cases r with
    | error e => simp at h
    | ok art =>
      simp only at h
      split_ifs at h with hmis
      simp only [Except.ok.injEq] at h
      refine ⟨art, rfl, h, ?_⟩
      rw [← h]
      exact hg art rfl

/-- C1 at a concrete input: the second of two requests for `exampleRecord` is
served from the cache and carries the recorded digest. -/
theorem C1_served_body_matches_EncodedSha256_witness :
    ∃ art, (getArtifact exampleLib exampleEnv
        (run exampleLib [.request exampleEnv exampleAgent exampleId exampleSha2] State.init)
        exampleId exampleSha2).1 = .ok art ∧
      art.Body = exampleRaw ∧
      hexDecodeString art.EncodedSha256 = .ok (exampleLib.sha256 exampleRaw) :=
  C1_served_body_matches_EncodedSha256 exampleLib
    [.request exampleEnv exampleAgent exampleId exampleSha2]
    exampleEnv exampleAgent exampleId exampleSha2 exampleRaw (by rfl)

/-- C2: `validateSha2String s` is nil exactly when `s` has length 64 and every
character of `s` is a hexadecimal digit; on every other string it returns
`ErrorBadSha2`, and it never returns another error. -/
theorem C2_validateSha2String_nil_iff_64_hex (s : GoString) :
    (validateSha2String s = none ↔ s.length = 64 ∧ ∀ c ∈ s, isHexDigit c = true) ∧
    (¬ (s.length = 64 ∧ ∀ c ∈ s, isHexDigit c = true) →
      validateSha2String s = some .ErrorBadSha2) ∧
    (∀ e, validateSha2String s = some e → e = .ErrorBadSha2) := by
  have hiff := validateSha2String_eq_none_iff s
  have hc := validateSha2String_cases s
  refine ⟨hiff, ?_, ?_⟩
  · intro hn
    rcases hc with h | h
    · exact absurd (hiff.mp h) hn
    · exact h
  · intro e he
    rcases hc with h | h
    · rw [h] at he; cases he
    · rw [h] at he; cases he; rfl

/-- C3 (as stated, refuted): for the malformed sha2 `x` and a request whose
authentication fails, `handleArtifacts` yields the authentication error, not
`ErrorBadSha2`, and `authAgent` has been called. -/
theorem C3_unauthenticated_request_not_BadSha2 :
    validateSha2String [120] = some .ErrorBadSha2 ∧
    handleArtifacts exampleLib unauthorizedEnv State.init ⟨[]⟩ exampleId [120] =
      (.error (.external "unauthorized"),
        { cache := [], trace := [.authAgent ⟨[]⟩] }) ∧
    (handleArtifacts exampleLib unauthorizedEnv State.init ⟨[]⟩ exampleId [120]).1 ≠
      .error .ErrorBadSha2 := by
  refine ⟨by rfl, by rfl, ?_⟩
  intro h
  have h2 : (handleArtifacts exampleLib unauthorizedEnv State.init ⟨[]⟩ exampleId [120]).1 =
      .error (.external "unauthorized") := by rfl
  rw [h2] at h
  cases h

/-- C3 (amended): for every sha2 that is not a 64-character hex string,
`processRequest` yields `ErrorBadSha2` and calls no collaborator (no throttle,
store or cache operation); `handleArtifacts` calls `authAgent` first and yields
its error when authentication fails, and `ErrorBadSha2` when it succeeds, with
no call besides `authAgent` in either case. -/
theorem C3_malformed_sha2_after_authentication (lib : Lib) (env : Collab) (s : State)
    (r : Request) (agent : Agent) (id sha2 : GoString)
    (hbad : ¬ (sha2.length = 64 ∧ ∀ c ∈ sha2, isHexDigit c = true)) :
    processRequest lib env s agent id sha2 = (.error .ErrorBadSha2, s) ∧
    (∀ e, env.authAgent r = .error e →
      handleArtifacts lib env s r id sha2 = (.error e, s.log (.authAgent r))) ∧
    (∀ a, env.authAgent r = .ok a →
      handleArtifacts lib env s r id sha2 =
        (.error .ErrorBadSha2, s.log (.authAgent r))) := by
  refine ⟨processRequest_invalid lib env s agent id sha2 hbad, ?_, ?_⟩
  · intro e he
    simp [handleArtifacts, he]
  · intro a ha
    simp [handleArtifacts, ha, processRequest_invalid lib env _ a id sha2 hbad]

/-- C3 (amended) at a concrete input: the sha2 `x`, with authentication
succeeding. -/
theorem C3_malformed_sha2_after_authentication_witness :
    processRequest exampleLib exampleEnv State.init exampleAgent exampleId [120] =
      (.error .ErrorBadSha2, State.init) ∧
    (∀ e, exampleEnv.authAgent ⟨[]⟩ = .error e →
      handleArtifacts exampleLib exampleEnv State.init ⟨[]⟩ exampleId [120] =
        (.error e, State.init.log (.authAgent ⟨[]⟩))) ∧
    (∀ a, exampleEnv.authAgent ⟨[]⟩ = .ok a →
      handleArtifacts exampleLib exampleEnv State.init ⟨[]⟩ exampleId [120] =
        (.error .ErrorBadSha2, State.init.log (.authAgent ⟨[]⟩))) :=
  C3_malformed_sha2_after_authentication exampleLib exampleEnv State.init ⟨[]⟩ exampleAgent
    exampleId [120] (by decide)


/-- C4 (as stated, refuted): the sha2 is well formed, the cache is empty and the
store returns `foreignRecord`, whose `Identifier` is `b` while the request asks
for `a`; its `EncodedSha256` is not hexadecimal.  `processRequest` fails in the
integrity check of `getArtifact`, not with `ErrorRecord`, and that whatever the
JSON and SHA-256 functions are. -/
theorem C4_mismatched_record_fails_in_integrity_check :
    validateSha2String exampleSha2 = none ∧
    cacheGetArtifact State.init.cache exampleId exampleSha2 = none ∧
    foreignEnv.findArtifact exampleId exampleSha2 = .ok foreignRecord ∧
    foreignRecord.Identifier ≠ exampleId ∧
    (processRequest exampleLib foreignEnv State.init exampleAgent exampleId exampleSha2).1 =
      .error (.wrap "sha2 hex decode" (.hexInvalidByte 122)) ∧
    (∀ lib : Lib,
      (processRequest lib foreignEnv State.init exampleAgent exampleId exampleSha2).1 ≠
        .error .ErrorRecord) := by
  refine ⟨by rfl, by rfl, by rfl, by decide, by rfl, ?_⟩
  intro lib
  have hv : validateSha2String exampleSha2 = none := by rfl
  rw [processRequest_valid lib foreignEnv State.init exampleAgent exampleId exampleSha2 hv,
    getArtifact_fetched lib foreignEnv State.init exampleId exampleSha2 foreignRecord
      (by rfl) (by rfl) (by rfl)]
  have hval : ∀ dst, validateSha2Data lib dst foreignRecord.EncodedSha256 =
      some (.wrap "sha2 hex decode" (.hexInvalidByte 122)) := by
    intro dst
    rfl
  cases lib.jsonUnmarshalString foreignRecord.Body with
  | none => simp
  | some src =>
    simp only
    cases hb : base64DecodeString src with
    | error e =>
      have := base64DecodeAux_error src [] e hb
      subst this
      simp
    | ok dst => simp [hval dst]

/-- C4 (amended): for a well-formed sha2 that misses the cache, a token granted
and a store record whose `Identifier` differs from id or whose `DecodedSha256`
differs from sha2, `processRequest` never succeeds; it fails with `ErrorRecord`
exactly when the record's body unmarshals, base64-decodes and passes the
integrity check against its `EncodedSha256` (the mismatch check comes after
`getArtifact`), and otherwise with the error of `getArtifact`. -/
theorem C4_mismatched_record_ErrorRecord_after_getArtifact (lib : Lib) (env : Collab)
    (s : State) (agent : Agent) (id sha2 : GoString) (rec : Artifact)
    (hv : validateSha2String sha2 = none)
    (hmiss : cacheGetArtifact s.cache id sha2 = none)
    (htok : env.acquire sha2 defaultThrottleTTL = true)
    (hfind : env.findArtifact id sha2 = .ok rec)
    (hmis : rec.Identifier ≠ id ∨ rec.DecodedSha256 ≠ sha2) :
    (∀ body, (processRequest lib env s agent id sha2).1 ≠ .ok body) ∧
    ((processRequest lib env s agent id sha2).1 = .error .ErrorRecord ↔
      ∃ src dst, lib.jsonUnmarshalString rec.Body = some src ∧
        base64DecodeString src = .ok dst ∧
        hexDecodeString rec.EncodedSha256 = .ok (lib.sha256 dst)) ∧
    ((processRequest lib env s agent id sha2).1 ≠ .error .ErrorRecord →
      (processRequest lib env s agent id sha2).1 =
        (getArtifact lib env s id sha2).1.map Artifact.Body) := by
  rw [processRequest_valid lib env s agent id sha2 hv,
    getArtifact_fetched lib env s id sha2 rec hmiss htok hfind]
  cases hj : lib.jsonUnmarshalString rec.Body with
  | none => simp [Except.map]
  | some src =>
    simp only
    cases hb : base64DecodeString src with
    | error e =>
      have := base64DecodeAux_error src [] e hb
      subst this
      simp [Except.map, hb]
    | ok dst =>
      simp only
      cases hval : validateSha2Data lib dst rec.EncodedSha256 with
      | some e =>
        have hne : hexDecodeString rec.EncodedSha256 ≠ .ok (lib.sha256 dst) := by
          intro h
          rw [(validateSha2Data_eq_none_iff lib dst rec.EncodedSha256).mpr h] at hval
          cases hval
        have he : e ≠ .ErrorRecord := by
          intro h
          subst h
          unfold validateSha2Data at hval
          split at hval
          · cases hval
          · split_ifs at hval
            cases hval
        simp [Except.map, he, hne, hb]
      | none =>
        have hok := (validateSha2Data_eq_none_iff lib dst rec.EncodedSha256).mp hval
        simp only
        rw [if_pos hmis]
        simp [hok, hb]

/-- C4 (amended) at a concrete input: a record stored under identifier `b` that
decodes and passes the integrity check. -/
theorem C4_mismatched_record_ErrorRecord_after_getArtifact_witness :
    (∀ body, (processRequest exampleLib
        { exampleEnv with findArtifact := fun _ _ => .ok { exampleRecord with Identifier := [98] } }
        State.init exampleAgent exampleId exampleSha2).1 ≠ .ok body) ∧
    ((processRequest exampleLib
        { exampleEnv with findArtifact := fun _ _ => .ok { exampleRecord with Identifier := [98] } }
        State.init exampleAgent exampleId exampleSha2).1 = .error .ErrorRecord ↔
      ∃ src dst, exampleLib.jsonUnmarshalString
          ({ exampleRecord with Identifier := [98] } : Artifact).Body = some src ∧
        base64DecodeString src = .ok dst ∧
        hexDecodeString ({ exampleRecord with Identifier := [98] } : Artifact).EncodedSha256 =
          .ok (exampleLib.sha256 dst)) ∧
    ((processRequest exampleLib
        { exampleEnv with findArtifact := fun _ _ => .ok { exampleRecord with Identifier := [98] } }
        State.init exampleAgent exampleId exampleSha2).1 ≠ .error .ErrorRecord →
      (processRequest exampleLib
        { exampleEnv with findArtifact := fun _ _ => .ok { exampleRecord with Identifier := [98] } }
        State.init exampleAgent exampleId exampleSha2).1 =
        (getArtifact exampleLib
          { exampleEnv with
            findArtifact := fun _ _ => .ok { exampleRecord with Identifier := [98] } }
          State.init exampleId exampleSha2).1.map Artifact.Body) :=
  C4_mismatched_record_ErrorRecord_after_getArtifact exampleLib
    { exampleEnv with findArtifact := fun _ _ => .ok { exampleRecord with Identifier := [98] } }
    State.init exampleAgent exampleId exampleSha2 { exampleRecord with Identifier := [98] }
    (by rfl) (by rfl) (by rfl) (by rfl) (Or.inl (by decide))

/-- C5: on a cache miss with a token granted, when the store returns a record
whose `EncodedSha256` is valid hex and whose body unmarshals and base64-decodes
to bytes with another SHA-256, `getArtifact` returns `ErrorMismatchSha2`,
`cache.SetArtifact` is not called and the cache is unchanged. -/
theorem C5_integrity_failure_leaves_cache (lib : Lib) (env : Collab) (s : State)
    (id sha2 : GoString) (rec : Artifact) (digest : List Byte) (src : GoString)
    (dst : List Byte)
    (hmiss : cacheGetArtifact s.cache id sha2 = none)
    (htok : env.acquire sha2 defaultThrottleTTL = true)
    (hfind : env.findArtifact id sha2 = .ok rec)
    (hhex : hexDecodeString rec.EncodedSha256 = .ok digest)
    (hjson : lib.jsonUnmarshalString rec.Body = some src)
    (hb64 : base64DecodeString src = .ok dst)
    (hsha : lib.sha256 dst ≠ digest) :
    (getArtifact lib env s id sha2).1 = .error .ErrorMismatchSha2 ∧
    (getArtifact lib env s id sha2).2.cache = s.cache ∧
    (getArtifact lib env s id sha2).2.trace =
      s.trace ++ [.cacheGet id sha2, .throttleAcquire sha2 defaultThrottleTTL,
        .findArtifact id sha2, .tokenRelease] ∧
    ((getArtifact lib env s id sha2).2.trace.drop s.trace.length).filter Event.isCacheSet
      = [] := by
  rw [getArtifact_fetched lib env s id sha2 rec hmiss htok hfind]
  simp [hjson, hb64, validateSha2Data_mismatch lib dst rec.EncodedSha256 digest hhex hsha,
    Event.isCacheSet]

/-- C5 at a concrete input: `corruptRecord`, whose encoded digest `00` is not
the digest of `hi`. -/
theorem C5_integrity_failure_leaves_cache_witness :
    (getArtifact exampleLib corruptEnv State.init exampleId exampleSha2).1 =
      .error .ErrorMismatchSha2 ∧
    (getArtifact exampleLib corruptEnv State.init exampleId exampleSha2).2.cache =
      State.init.cache ∧
    (getArtifact exampleLib corruptEnv State.init exampleId exampleSha2).2.trace =
      State.init.trace ++ [.cacheGet exampleId exampleSha2,
        .throttleAcquire exampleSha2 defaultThrottleTTL,
        .findArtifact exampleId exampleSha2, .tokenRelease] ∧
    ((getArtifact exampleLib corruptEnv State.init exampleId exampleSha2).2.trace.drop
      State.init.trace.length).filter Event.isCacheSet = [] :=
  C5_integrity_failure_leaves_cache exampleLib corruptEnv State.init exampleId exampleSha2
    corruptRecord [0] (base64EncodeToString exampleRaw) exampleRaw
    (by rfl) (by rfl) (by rfl) (by rfl) (by rfl) (by rfl) (by decide)

/-- C6: on a cache hit `getArtifact` returns exactly the cached artifact without
error; the only call made is the cache lookup (no throttle token, no store
fetch, no cache write) and the cache is unchanged. -/
theorem C6_cache_hit_returns_cached (lib : Lib) (env : Collab) (s : State)
    (id sha2 : GoString) (a : Artifact)
    (hhit : cacheGetArtifact s.cache id sha2 = some a) :
    (getArtifact lib env s id sha2).1 = .ok a ∧
    (getArtifact lib env s id sha2).2.cache = s.cache ∧
    (getArtifact lib env s id sha2).2.trace = s.trace ++ [.cacheGet id sha2] := by
  simp [getArtifact, hhit, State.log]

/-- C6 at a concrete input: a cache that holds `exampleRecord`, with a store and
a throttle that would answer otherwise. -/
theorem C6_cache_hit_returns_cached_witness :
    (getArtifact exampleLib throttledEnv { cache := [exampleRecord], trace := [] }
      exampleId exampleSha2).1 = .ok exampleRecord ∧
    (getArtifact exampleLib throttledEnv { cache := [exampleRecord], trace := [] }
      exampleId exampleSha2).2.cache = [exampleRecord] ∧
    (getArtifact exampleLib throttledEnv { cache := [exampleRecord], trace := [] }
      exampleId exampleSha2).2.trace = [] ++ [.cacheGet exampleId exampleSha2] :=
  C6_cache_hit_returns_cached exampleLib throttledEnv
    { cache := [exampleRecord], trace := [] } exampleId exampleSha2 exampleRecord (by rfl)

/-- C7: on a cache miss the throttle is asked for a token with key sha2 and a
TTL of 60 seconds; when it returns none, `fetchArtifact`, `getArtifact` and
(for a well-formed sha2) `processRequest` fail with `ErrorThrottle`, the store
is not called and the cache is not written. -/
theorem C7_no_token_ErrorThrottle (lib : Lib) (env : Collab) (s : State) (agent : Agent)
    (id sha2 : GoString)
    (hmiss : cacheGetArtifact s.cache id sha2 = none) :
    defaultThrottleTTL = 60 * 1000000000 ∧
    (∃ rest, (getArtifact lib env s id sha2).2.trace =
      s.trace ++ [.cacheGet id sha2, .throttleAcquire sha2 (60 * 1000000000)] ++ rest) ∧
    (env.acquire sha2 (60 * 1000000000) = false →
      fetchArtifact env s id sha2 =
        (.error .ErrorThrottle, s.log (.throttleAcquire sha2 (60 * 1000000000))) ∧
      getArtifact lib env s id sha2 =
        (.error .ErrorThrottle,
          { cache := s.cache,
            trace := s.trace ++
              [.cacheGet id sha2, .throttleAcquire sha2 (60 * 1000000000)] }) ∧
      (validateSha2String sha2 = none →
        processRequest lib env s agent id sha2 =
          (.error .ErrorThrottle,
            { cache := s.cache,
              trace := s.trace ++
                [.cacheGet id sha2, .throttleAcquire sha2 (60 * 1000000000)] }))) := by
  have httl : defaultThrottleTTL = 60 * 1000000000 := rfl
  have hget : env.acquire sha2 (60 * 1000000000) = false →
      getArtifact lib env s id sha2 =
        (.error .ErrorThrottle,
          { cache := s.cache,
            trace := s.trace ++
              [.cacheGet id sha2, .throttleAcquire sha2 (60 * 1000000000)] }) := by
    intro hno
    unfold getArtifact
    rw [hmiss]
    simp only
    rw [fetchArtifact_no_token env _ id sha2 (by rw [httl]; exact hno)]
    simp [State.log, httl]
  refine ⟨httl, ?_, ?_⟩
  · cases hacq : env.acquire sha2 (60 * 1000000000) with
    | false =>
      rw [hget hacq]
      exact ⟨[], by simp⟩
    | true =>
      unfold getArtifact
      rw [hmiss]
      simp only [fetchArtifact, httl, hacq]
      cases env.findArtifact id sha2 with
      | error e => exact ⟨[.findArtifact id sha2, .tokenRelease], by simp [State.log]⟩
      | ok rec =>
        simp only [Bool.true_eq_false, if_false]
        cases lib.jsonUnmarshalString rec.Body with
        | none => exact ⟨[.findArtifact id sha2, .tokenRelease], by simp [State.log]⟩
        | some src =>
          simp only
          cases base64DecodeString src with
          | error e => exact ⟨[.findArtifact id sha2, .tokenRelease], by simp [State.log]⟩
          | ok dst =>
            simp only
            cases validateSha2Data lib dst rec.EncodedSha256 with
            | some e => exact ⟨[.findArtifact id sha2, .tokenRelease], by simp [State.log]⟩
            | none =>
              exact ⟨[.findArtifact id sha2, .tokenRelease,
                .cacheSet { rec with Body := dst }], by simp [State.log]⟩
  · intro hno
    refine ⟨?_, hget hno, ?_⟩
    · rw [← httl]
      exact fetchArtifact_no_token env s id sha2 (by rw [httl]; exact hno)
    · intro hv
      rw [processRequest_valid lib env s agent id sha2 hv, hget hno]

/-- C7 at a concrete input: the empty cache and a throttle that returns no
token. -/
theorem C7_no_token_ErrorThrottle_witness :
    processRequest exampleLib throttledEnv State.init exampleAgent exampleId exampleSha2 =
      (.error .ErrorThrottle,
        { cache := [],
          trace := [.cacheGet exampleId exampleSha2,
            .throttleAcquire exampleSha2 (60 * 1000000000)] }) :=
  (C7_no_token_ErrorThrottle exampleLib throttledEnv State.init exampleAgent exampleId
    exampleSha2 (by rfl)).2.2 (by rfl) |>.2.2 (by rfl)

/-- C8: happy-path round trip.  For every payload `raw`, every id and every
well-formed sha2, with an empty cache, a token granted and a store record with
`Identifier = id`, `DecodedSha256 = sha2`, `EncodedSha256 = hex(SHA256(raw))` and
a body that is the JSON string of `base64(raw)`: `processRequest` succeeds and
yields exactly `raw`, and `cache.SetArtifact` is called once, with the record
carrying `Body = raw`. -/
theorem C8_happy_path_round_trip (lib : Lib) (env : Collab) (s : State) (agent : Agent)
    (id sha2 : GoString) (raw : List Byte) (rec : Artifact)
    (hv : sha2.length = 64 ∧ ∀ c ∈ sha2, isHexDigit c = true)
    (hempty : s.cache = [])
    (htok : env.acquire sha2 defaultThrottleTTL = true)
    (hfind : env.findArtifact id sha2 = .ok rec)
    (hid : rec.Identifier = id)
    (hsha : rec.DecodedSha256 = sha2)
    (henc : rec.EncodedSha256 = hexEncodeToString (lib.sha256 raw))
    (hbody : lib.jsonUnmarshalString rec.Body = some (base64EncodeToString raw)) :
    (processRequest lib env s agent id sha2).1 = .ok raw ∧
    (processRequest lib env s agent id sha2).2.trace =
      s.trace ++ [.cacheGet id sha2, .throttleAcquire sha2 defaultThrottleTTL,
        .findArtifact id sha2, .tokenRelease, .cacheSet { rec with Body := raw }] ∧
    ((processRequest lib env s agent id sha2).2.trace.drop s.trace.length).filter
      Event.isCacheSet = [.cacheSet { rec with Body := raw }] ∧
    (processRequest lib env s agent id sha2).2.cache =
      cacheSetArtifact [] (env.cacheAdmits { rec with Body := raw })
        { rec with Body := raw } := by
  have hval := (validateSha2String_eq_none_iff sha2).mpr hv
  have hmiss : cacheGetArtifact s.cache id sha2 = none := by
    rw [hempty]
    rfl
  have hint : validateSha2Data lib raw rec.EncodedSha256 = none := by
    rw [validateSha2Data_eq_none_iff, henc]
    exact hexDecodeString_hexEncodeToString _
  rw [processRequest_valid lib env s agent id sha2 hval,
    getArtifact_fetched lib env s id sha2 rec hmiss htok hfind]
  simp [hbody, base64DecodeString_base64EncodeToString, hint, hid, hsha, hempty,
    Event.isCacheSet]

/-- C8 at a concrete input: `exampleRecord`, which holds `hi`. -/
theorem C8_happy_path_round_trip_witness :
    (processRequest exampleLib exampleEnv State.init exampleAgent exampleId exampleSha2).1 =
      .ok exampleRaw :=
  (C8_happy_path_round_trip exampleLib exampleEnv State.init exampleAgent exampleId
    exampleSha2 exampleRaw exampleRecord (by decide) (by rfl) (by rfl) (by rfl) (by rfl)
    (by rfl) (by rfl) (by rfl)).1

/-- C9 (as stated, refuted): the 64-character string `AAAA…A` consists of
uppercase letters only, none of them in `0-9` or `a-f`, and
`validateSha2String` accepts it. -/
theorem C9_uppercase_sha2_accepted :
    (List.replicate 64 (65 : Byte)).length = 64 ∧
    isLowerHexDigit (65 : Byte) = false ∧
    validateSha2String (List.replicate 64 (65 : Byte)) = none := by
  decide

/-- C9 (amended): every sha2 that `validateSha2String` accepts consists only of
characters in `0-9`, `a-f` and `A-F`; every 64-character string of such
characters is accepted, uppercase letters included; every 64-character string
with a character outside them is rejected with `ErrorBadSha2`. -/
theorem C9_validateSha2String_hex_either_case (s : GoString) :
    (validateSha2String s = none →
      ∀ c ∈ s, isLowerHexDigit c = true ∨ (65 ≤ c.val ∧ c.val ≤ 70)) ∧
    (s.length = 64 → (∀ c ∈ s, isLowerHexDigit c = true ∨ (65 ≤ c.val ∧ c.val ≤ 70)) →
      validateSha2String s = none) ∧
    (s.length = 64 → (∃ c ∈ s, ¬ (isLowerHexDigit c = true ∨ (65 ≤ c.val ∧ c.val ≤ 70))) →
      validateSha2String s = some .ErrorBadSha2) := by
  have hd : ∀ c : Byte, isHexDigit c = true ↔
      (isLowerHexDigit c = true ∨ (65 ≤ c.val ∧ c.val ≤ 70)) := by
    intro c
    simp [isHexDigit, isLowerHexDigit]
  have hiff := validateSha2String_eq_none_iff s
  refine ⟨?_, ?_, ?_⟩
  · intro h c hc
    exact (hd c).mp ((hiff.mp h).2 c hc)
  · intro hl hall
    exact hiff.mpr ⟨hl, fun c hc => (hd c).mpr (hall c hc)⟩
  · rintro _ ⟨c, hc, hnot⟩
    rcases validateSha2String_cases s with h | h
    · exact absurd ((hd c).mp ((hiff.mp h).2 c hc)) hnot
    · exact h

/-- C10: `Output.Validate` returns nil exactly when `Extra` is nil, empty, or has
`elasticsearch` as its only key; whenever a key other than `elasticsearch` is
present it returns the error "can only contain elasticsearch key", and it
returns no other error. -/
theorem C10_Output_Validate_nil_iff {V : Type} (c : Output V) :
    (c.Validate.1 = none ↔
      (c.Extra = none ∨
        ∃ m, c.Extra = some m ∧ (m.keys = [] ∨ m.keys = [elasticsearchKey]))) ∧
    ((∃ m, c.Extra = some m ∧ ∃ k ∈ m.keys, k ≠ elasticsearchKey) →
      c.Validate.1 = some (.errorf "can only contain elasticsearch key")) ∧
    (∀ e, c.Validate.1 = some e → e = .errorf "can only contain elasticsearch key") := by
  have key : ∀ m : GoMap V,
      (((!(m.lookup elasticsearchKey).isSome && decide (m.entries.length > 0)) ||
        ((m.lookup elasticsearchKey).isSome && decide (m.entries.length > 1))) = false) ↔
      (m.keys = [] ∨ m.keys = [elasticsearchKey]) := by
    intro m
    have hlen : m.keys.length = m.entries.length := by simp [AList.keys, List.keys]
    constructor
    · intro h
      cases hk : (m.lookup elasticsearchKey).isSome with
      | true =>
        right
        simp [hk] at h
        exact keys_eq_singleton_of_lookup m hk h
      | false =>
        left
        simp [hk] at h
        exact List.length_eq_zero.mp (by rw [hlen, h]; rfl)
    · rintro (h | h)
      · have h0 : m.entries.length = 0 := by rw [← hlen, h]; rfl
        simp [h0]
      · have h1 : m.entries.length = 1 := by rw [← hlen, h]; rfl
        have hk : (m.lookup elasticsearchKey).isSome = true := by
          rw [AList.lookup_isSome, AList.mem_keys, h]
          simp
        simp [h1, hk]
  cases hE : c.Extra with
  | none => simp [Output.Validate, hE]
  | some m =>
    have hkey := key m
    by_cases hb : ((!(m.lookup elasticsearchKey).isSome && decide (m.entries.length > 0)) ||
        ((m.lookup elasticsearchKey).isSome && decide (m.entries.length > 1))) = true
    · have hnot : ¬ (m.keys = [] ∨ m.keys = [elasticsearchKey]) := by
        intro h
        rw [hkey.mpr h] at hb
        cases hb
      simp only [Output.Validate, hE, hb, if_true]
      simp [hnot]
    · have hf := Bool.eq_false_iff.mpr hb
      have hyes := hkey.mp hf
      simp only [Output.Validate, hE, hf]
      simp only [Bool.false_eq_true, if_false, true_iff]
      refine ⟨Or.inr ⟨m, rfl, hyes⟩, ?_, ?_⟩
      · rintro ⟨m2, hm2, k, hk, hne⟩
        cases hm2
        rcases hyes with h | h
        · rw [h] at hk; cases hk
        · rw [h] at hk
          simp at hk
          exact absurd hk hne
      · intro e he
        cases he

/-- C11: for every Elasticsearch configuration on which `ToESConfig` succeeds: with
`longPoll = false` the transport's `ResponseHeaderTimeout` equals `c.Timeout`
(90 seconds when `c` comes from `InitDefaults`) and `DisableRetry` is false; with
`longPoll = true` the transport's `ResponseHeaderTimeout` and `IdleConnTimeout`
are both 10 minutes, whatever `c.Timeout` is, and `DisableRetry` is true. -/
theorem C11_ToESConfig_timeouts (lib : ConfigLib) (c : Elasticsearch) (longPoll : Bool)
    (cfg : ESConfig) (h : c.ToESConfig lib longPoll = .ok cfg) :
    (longPoll = false →
      cfg.Transport.ResponseHeaderTimeout = c.Timeout ∧ cfg.DisableRetry = false) ∧
    (longPoll = true →
      cfg.Transport.ResponseHeaderTimeout = 10 * 60 * 1000000000 ∧
      cfg.Transport.IdleConnTimeout = 10 * 60 * 1000000000 ∧
      cfg.DisableRetry = true) ∧
    c.InitDefaults.Timeout = 90 * 1000000000 ∧
    (∀ cfg0, c.InitDefaults.ToESConfig lib false = .ok cfg0 →
      cfg0.Transport.ResponseHeaderTimeout = 90 * 1000000000) := by
  have ht := ToESConfig_timeouts lib c longPoll cfg h
  refine ⟨?_, ?_, rfl, ?_⟩
  · intro hl
    subst hl
    simpa using ⟨ht.2.1, ht.1⟩
  · intro hl
    subst hl
    have hlp : httpTransportLongPollTimeout = 10 * 60 * 1000000000 := by decide
    simpa [hlp] using ⟨ht.2.1, ht.2.2, ht.1⟩
  · intro cfg0 h0
    have h1 := (ToESConfig_timeouts lib c.InitDefaults false cfg0 h0).2.1
    simpa [Elasticsearch.InitDefaults, second] using h1

/-- C11 at a concrete input: the default configuration on the long-poll path. -/
theorem C11_ToESConfig_timeouts_witness :
    ∃ cfg, Elasticsearch.zero.InitDefaults.ToESConfig exampleConfigLib true = .ok cfg ∧
      cfg.Transport.ResponseHeaderTimeout = 10 * 60 * 1000000000 ∧
      cfg.Transport.IdleConnTimeout = 10 * 60 * 1000000000 ∧
      cfg.DisableRetry = true ∧
      cfg.Addresses = [ascii "http://localhost:9200"] :=
  match hc : Elasticsearch.zero.InitDefaults.ToESConfig exampleConfigLib true with
  | .ok cfg =>
    ⟨cfg, rfl,
      ((C11_ToESConfig_timeouts exampleConfigLib Elasticsearch.zero.InitDefaults true cfg
        hc).2.1 rfl).1,
      ((C11_ToESConfig_timeouts exampleConfigLib Elasticsearch.zero.InitDefaults true cfg
        hc).2.1 rfl).2.1,
      ((C11_ToESConfig_timeouts exampleConfigLib Elasticsearch.zero.InitDefaults true cfg
        hc).2.1 rfl).2.2,
      by
        have h2 : (Elasticsearch.zero.InitDefaults.ToESConfig exampleConfigLib true).map
            (fun c => c.Addresses) = .ok [ascii "http://localhost:9200"] := by rfl
        rw [hc] at h2
        simpa [Except.map] using h2⟩
  | .error e => by
    have h2 : (Elasticsearch.zero.InitDefaults.ToESConfig exampleConfigLib true).map
        (fun c => c.Addresses) = .ok [ascii "http://localhost:9200"] := by rfl
    rw [hc] at h2
    cases h2

/-- C12: for every agent of the policy that an Unenroller scan reads at time `now`:
the scan retires the agent (`Active := false`, `UnenrolledReason = "timeout"`,
`UnenrolledAt` set) exactly when the agent is active, the policy's
`UnenrollTimeout` is positive and `now - max(LastCheckin, UpdatedAt, EnrolledAt)`
is at least `UnenrollTimeout`; every other agent is left as it is; with
`UnenrollTimeout = 0` no agent is retired. -/
theorem C12_unenroll_iff_stale (p : Coordinator.Policy) (now : Int)
    (agents : List Coordinator.Agent) (a : Coordinator.Agent)
    (hmem : a ∈ agents) (hpol : a.PolicyID = p.PolicyID) :
    (a ∈ Coordinator.unenrollTargets p now agents ↔
      (a.Active = true ∧ p.UnenrollTimeout > 0 ∧
        now - max a.LastCheckin (max a.UpdatedAt a.EnrolledAt) ≥ p.UnenrollTimeout)) ∧
    (a ∈ Coordinator.unenrollTargets p now agents →
      Coordinator.markInactive now a ∈ Coordinator.unenrollScan p now agents ∧
      (Coordinator.markInactive now a).Active = false ∧
      (Coordinator.markInactive now a).UnenrolledReason = ascii "timeout" ∧
      (Coordinator.markInactive now a).UnenrolledAt = some now) ∧
    (a ∉ Coordinator.unenrollTargets p now agents →
      a ∈ Coordinator.unenrollScan p now agents) ∧
    (p.UnenrollTimeout = 0 →
      Coordinator.unenrollTargets p now agents = [] ∧
      Coordinator.unenrollScan p now agents = agents) := by
  have hstale : Coordinator.isStale p now a = true ↔
      (a.Active = true ∧
        now - max a.LastCheckin (max a.UpdatedAt a.EnrolledAt) ≥ p.UnenrollTimeout) := by
    simp [Coordinator.isStale, Coordinator.lastActivity, hpol]
  have htarget : a ∈ Coordinator.unenrollTargets p now agents ↔
      (p.UnenrollTimeout > 0 ∧ Coordinator.isStale p now a = true) := by
    unfold Coordinator.unenrollTargets
    split_ifs with h
    · simp [List.mem_filter, hmem, h]
    · simp [h]
  refine ⟨?_, ?_, ?_, ?_⟩
  · rw [htarget, hstale]
    tauto
  · intro ht
    have h1 := htarget.mp ht
    refine ⟨?_, rfl, rfl, rfl⟩
    unfold Coordinator.unenrollScan
    rw [if_pos h1.1]
    exact List.mem_map.mpr ⟨a, hmem, by rw [if_pos h1.2]⟩
  · intro hnt
    unfold Coordinator.unenrollScan
    split_ifs with h
    · have hns : ¬ Coordinator.isStale p now a = true := fun hs => hnt (htarget.mpr ⟨h, hs⟩)
      exact List.mem_map.mpr ⟨a, hmem, by rw [if_neg hns]⟩
    · exact hmem
  · intro h0
    simp [Coordinator.unenrollTargets, Coordinator.unenrollScan, h0]

/-- C12 at a concrete input: the scenario of `TestMonitorUnenroller`, a timeout of
5 seconds and an agent last seen 360 seconds before the scan. -/
theorem C12_unenroll_iff_stale_witness :
    exampleStaleAgent ∈ Coordinator.unenrollTargets examplePolicy 1360 [exampleStaleAgent] ∧
    Coordinator.unenrollScan examplePolicy 1360 [exampleStaleAgent] =
      [{ exampleStaleAgent with Active := false, UnenrolledAt := some 1360,
                                UnenrolledReason := ascii "timeout" }] :=
  ⟨(C12_unenroll_iff_stale examplePolicy 1360 [exampleStaleAgent] exampleStaleAgent
      (by decide) (by decide)).1.mpr (by decide),
    by decide⟩

/-- C13: after the leases are released at time `now` with a release horizon of at
least 30 seconds, the leader record of every policy the server led still names
this server, and at every later time its timestamp is at least 30 seconds in
the past. -/
theorem C13_released_lease_expired (self : GoString) (now horizon later : Int)
    (led : List GoString) (leaders : GoString → Option Coordinator.PolicyLeader)
    (policyID : GoString)
    (hh : 30 ≤ horizon) (hled : policyID ∈ led) (hlater : now ≤ later) :
    ∃ l, Coordinator.releaseLeadership self now horizon led leaders policyID = some l ∧
      l.Server = self ∧ later - l.Timestamp ≥ 30 := by
  refine ⟨{ Server := self, Timestamp := now - horizon }, ?_, rfl, ?_⟩
  · simp [Coordinator.releaseLeadership, hled]
  · simp only [ge_iff_le]
    omega

/-- C13 at a concrete input: two policies led, released at time 100 with a horizon
of 30 seconds, read at time 102. -/
theorem C13_released_lease_expired_witness :
    ∃ l, Coordinator.releaseLeadership [115] 100 30 [[112], [113]] (fun _ => none) [113] =
        some l ∧
      l.Server = [115] ∧ (102 : Int) - l.Timestamp ≥ 30 :=
  C13_released_lease_expired [115] 100 30 102 [[112], [113]] (fun _ => none) [113]
    (by decide) (by decide) (by decide)

/-- C14: a configuration with a non-empty `APIKey` is rejected by `Validate` with
"cannot connect to elasticsearch with api_key; must use service_token", whatever
its other fields are; a configuration with empty `APIKey`, nil `TLS` and either an
empty `ProxyURL` or `ProxyDisable = true` is accepted. -/
theorem C14_Elasticsearch_Validate (lib : ConfigLib) (c : Elasticsearch) :
    (c.APIKey ≠ [] →
      c.Validate lib =
        some (.errorf "cannot connect to elasticsearch with api_key; must use service_token")) ∧
    (c.APIKey = [] → c.TLS = none → (c.ProxyURL = [] ∨ c.ProxyDisable = true) →
      c.Validate lib = none) := by
  refine ⟨?_, ?_⟩
  · intro h
    simp [Elasticsearch.Validate, h]
  · intro hk ht hp
    rcases hp with hp | hp <;> simp [Elasticsearch.Validate, hk, ht, hp]

/-- C15: when `Output.Validate` returns nil, `Extra` is nil afterwards and
`Elasticsearch` is unchanged; when it returns an error the receiver is unchanged;
after a success a second call returns nil again. -/
theorem C15_Output_Validate_frame {V : Type} (o : Output V) :
    (o.Validate.1 = none →
      o.Validate.2.Extra = none ∧ o.Validate.2.Elasticsearch = o.Elasticsearch) ∧
    (∀ e, o.Validate.1 = some e → o.Validate.2 = o) ∧
    (o.Validate.1 = none → o.Validate.2.Validate.1 = none) := by
  unfold Output.Validate
  cases hE : o.Extra with
  | none => simp [hE]
  | some m =>
    simp only
    split_ifs <;> simp

/-- C16: when `processRequest` returns an error, `cache.SetArtifact` has been
called during the request exactly when the error is `ErrorRecord` on a cache
miss; in that case the store returned a record that unmarshals, decodes and
passes the integrity check but whose `Identifier` or `DecodedSha256` differs
from the request, and the call of `SetArtifact` with that record (body decoded)
is the last call made.  On every other error the cache is not written. -/
theorem C16_error_after_cache_write_iff_ErrorRecord (lib : Lib) (env : Collab) (s : State)
    (agent : Agent) (id sha2 : GoString) (e : Err)
    (herr : (processRequest lib env s agent id sha2).1 = .error e) :
    ((((processRequest lib env s agent id sha2).2.trace.drop s.trace.length).filter
        Event.isCacheSet ≠ []) ↔
      (e = .ErrorRecord ∧ cacheGetArtifact s.cache id sha2 = none)) ∧
    ((e = .ErrorRecord ∧ cacheGetArtifact s.cache id sha2 = none) →
      ∃ rec src dst, env.findArtifact id sha2 = .ok rec ∧
        lib.jsonUnmarshalString rec.Body = some src ∧
        base64DecodeString src = .ok dst ∧
        hexDecodeString rec.EncodedSha256 = .ok (lib.sha256 dst) ∧
        (rec.Identifier ≠ id ∨ rec.DecodedSha256 ≠ sha2) ∧
        (processRequest lib env s agent id sha2).2.trace =
          s.trace ++ [.cacheGet id sha2, .throttleAcquire sha2 defaultThrottleTTL,
            .findArtifact id sha2, .tokenRelease, .cacheSet { rec with Body := dst }]) ∧
    (¬ (e = .ErrorRecord ∧ cacheGetArtifact s.cache id sha2 = none) →
      (processRequest lib env s agent id sha2).2.cache = s.cache) := by
  cases hv : validateSha2String sha2 with
  | some e1 =>
    have hb : e1 = .ErrorBadSha2 := by
      rcases validateSha2String_cases sha2 with h | h
      · rw [h] at hv; cases hv
      · rw [h] at hv; cases hv; rfl
    subst hb
    simp only [processRequest, hv, Except.error.injEq] at herr ⊢
    subst herr
    simp
  | none =>
    rw [processRequest_valid lib env s agent id sha2 hv] at herr ⊢
    cases hget : cacheGetArtifact s.cache id sha2 with
    | some a =>
      have hk := cacheGetArtifact_key _ _ _ _ hget
      simp [getArtifact, hget, hk.1, hk.2] at herr
    | none =>
      cases htok : env.acquire sha2 defaultThrottleTTL with
      | false =>
        simp only [getArtifact, hget, fetchArtifact_no_token env _ id sha2 htok,
          Except.error.injEq] at herr ⊢
        subst herr
        simp [State.log, Event.isCacheSet]
      | true =>
        cases hfind : env.findArtifact id sha2 with
        | error e2 =>
          simp only [getArtifact, hget, fetchArtifact, htok, hfind,
            Except.error.injEq] at herr ⊢
          simp only [Bool.true_eq_false, if_false, Except.error.injEq] at herr ⊢
          subst herr
          simp [State.log, Event.isCacheSet]
        | ok rec =>
          rw [getArtifact_fetched lib env s id sha2 rec hget htok hfind] at herr ⊢
          cases hj : lib.jsonUnmarshalString rec.Body with
          | none =>
            simp only [hj, Except.error.injEq] at herr ⊢
            subst herr
            simp [Event.isCacheSet]
          | some src =>
            simp only [hj] at herr ⊢
            cases hb : base64DecodeString src with
            | error e3 =>
              have := base64DecodeAux_error src [] e3 hb
              subst this
              simp only [hb, Except.error.injEq] at herr ⊢
              subst herr
              simp [Event.isCacheSet]
            | ok dst =>
              simp only [hb] at herr ⊢
              cases hval : validateSha2Data lib dst rec.EncodedSha256 with
              | some e4 =>
                have hne := validateSha2Data_ne_ErrorRecord lib dst rec.EncodedSha256
                simp only [hval, Except.error.injEq] at herr ⊢
                subst herr
                have he : e4 ≠ .ErrorRecord := by
                  intro h
                  rw [h] at hval
                  exact hne hval
                simp [Event.isCacheSet, he]
              | none =>
                have hok := (validateSha2Data_eq_none_iff lib dst rec.EncodedSha256).mp hval
                simp only [hval] at herr ⊢
                by_cases hmis : rec.Identifier ≠ id ∨ rec.DecodedSha256 ≠ sha2
                · rw [if_pos hmis] at herr ⊢
                  simp only [Except.error.injEq] at herr
                  subst herr
                  refine ⟨by simp [Event.isCacheSet], ?_, by simp⟩
                  intro _
                  exact ⟨rec, src, dst, rfl, hj, hb, hok, hmis, rfl⟩
                · rw [if_neg hmis] at herr
                  cases herr

/-- C16 at a concrete input: a record stored under identifier `b` that decodes and
passes the integrity check; the request for `a` fails with `ErrorRecord` after
the cache has been written. -/
theorem C16_error_after_cache_write_iff_ErrorRecord_witness :
    (((processRequest exampleLib
        { exampleEnv with findArtifact := fun _ _ => .ok { exampleRecord with Identifier := [98] } }
        State.init exampleAgent exampleId exampleSha2).2.trace.drop
          State.init.trace.length).filter Event.isCacheSet ≠ []) ↔
      (Err.ErrorRecord = .ErrorRecord ∧
        cacheGetArtifact State.init.cache exampleId exampleSha2 = none) :=
  (C16_error_after_cache_write_iff_ErrorRecord exampleLib
    { exampleEnv with findArtifact := fun _ _ => .ok { exampleRecord with Identifier := [98] } }
    State.init exampleAgent exampleId exampleSha2 .ErrorRecord (by rfl)).1

/-- C17 (as stated, refuted): with the default scheme `HTTP` the address of `host`
is `http://host:9200`, not `HTTP://host:9200`; with the default path `/a b` it is
`http://host:9200/a%20b`, not `http://host:9200/a b`; with the default scheme
`1http` `makeURL` fails. -/
theorem C17_makeURL_scheme_lowered_path_escaped :
    makeURL (ascii "HTTP") [] (ascii "host") 9200 = .ok (ascii "http://host:9200") ∧
    ascii "http://host:9200" ≠
      ascii "HTTP" ++ ascii "://" ++ ascii "host" ++ ascii ":" ++ itoa 9200 ++ [] ∧
    makeURL (ascii "http") (ascii "/a b") (ascii "host") 9200 =
      .ok (ascii "http://host:9200/a%20b") ∧
    ascii "http://host:9200/a%20b" ≠
      ascii "http" ++ ascii "://" ++ ascii "host" ++ ascii ":" ++ itoa 9200 ++ ascii "/a b" ∧
    makeURL (ascii "1http") [] (ascii "host") 9200 =
      .error (.urlParse "first path segment in URL cannot contain colon") := by
  refine ⟨by rfl, by decide, by rfl, by decide, by rfl⟩

/-- C17 (amended): for a raw URL `host` or `host:port` (host a non-empty DNS name of
letters, digits, `-` and `.`, port decimal digits), a default scheme that is empty
or a letter followed by letters, digits, `+`, `-`, `.`, and a default path that is
empty or starts with `/`, `makeURL` succeeds and returns
`scheme://host:p` followed by the path, where scheme is the default scheme in
lower case (`http` when it is empty), `p` is the port of the raw URL (the default
port when it has none) and the path is the default path percent-escaped as
`url.URL.String` does; a scheme without uppercase letters and a path without
characters to escape are returned as they are.  `ToESConfig` applies `makeURL`
to each entry of `Hosts` in order with default port 9200. -/
theorem C17_makeURL_host_port (defaultScheme defaultPath host port : GoString)
    (defaultPort : Int)
    (hscheme : defaultScheme = [] ∨ validScheme defaultScheme = true)
    (hhost : host ≠ [] ∧ ∀ c ∈ host, isDNSChar c = true)
    (hport : ∀ c ∈ port, isDigit c = true)
    (hpath : defaultPath = [] ∨ defaultPath.head? = some 47) :
    makeURL defaultScheme defaultPath host defaultPort =
      .ok ((if defaultScheme = [] then ascii "http" else toLowerASCII defaultScheme) ++
        ascii "://" ++ host ++ ascii ":" ++ itoa defaultPort ++
        escape .encodePath defaultPath) ∧
    makeURL defaultScheme defaultPath (host ++ ascii ":" ++ port) defaultPort =
      .ok ((if defaultScheme = [] then ascii "http" else toLowerASCII defaultScheme) ++
        ascii "://" ++ host ++ ascii ":" ++ port ++ escape .encodePath defaultPath) ∧
    ((∀ c ∈ defaultScheme, ¬ (65 ≤ c.val ∧ c.val ≤ 90)) →
      toLowerASCII defaultScheme = defaultScheme) ∧
    ((∀ c ∈ defaultPath, shouldEscape c .encodePath = false) →
      escape .encodePath defaultPath = defaultPath) ∧
    (∀ (lib : ConfigLib) (c : Elasticsearch) (longPoll : Bool) (cfg : ESConfig),
      c.ToESConfig lib longPoll = .ok cfg →
      List.Forall₂ (fun h addr => makeURL c.Protocol c.Path h 9200 = .ok addr)
        c.Hosts cfg.Addresses) := by
  have hs : validScheme (if defaultScheme = [] then schemeHTTP else defaultScheme) = true := by
    rcases hscheme with h | h
    · rw [if_pos h]
      decide
    · have hne : defaultScheme ≠ [] := by
        intro h0
        rw [h0] at h
        simp [validScheme] at h
      rw [if_neg hne]
      exact h
  have hlow : toLowerASCII (if defaultScheme = [] then schemeHTTP else defaultScheme) =
      (if defaultScheme = [] then ascii "http" else toLowerASCII defaultScheme) := by
    split_ifs
    · decide
    · rfl
  have hp2 : defaultPath = [] ∨ ∃ rest, defaultPath = 47 :: rest := by
    rcases hpath with h | h
    · exact Or.inl h
    · cases defaultPath with
      | nil => exact Or.inl rfl
      | cons c rest =>
        simp only [List.head?_cons, Option.some.injEq] at h
        exact Or.inr ⟨rest, by rw [h]⟩
  have hhc : ∀ c ∈ host, isHostPortChar c = true :=
    fun c hc => isDNSChar_hostPort c (hhost.2 c hc)
  have hncol : ∀ c ∈ host, c.val ≠ 58 := fun c hc => isDNSChar_ne_colon c (hhost.2 c hc)
  have hpd : ∀ c ∈ port, isDNSChar c = true := fun c hc => isDigit_isDNSChar c (hport c hc)
  have hall : ∀ c ∈ host ++ 58 :: port, isHostPortChar c = true := by
    intro c hc
    simp only [List.mem_append, List.mem_cons] at hc
    rcases hc with hc | rfl | hc
    · exact hhc c hc
    · decide
    · exact isDNSChar_hostPort c (hpd c hc)
  have hcolon : ascii ":" = ([58] : GoString) := by decide
  have hsep : ascii "://" = ([58, 47, 47] : GoString) := by decide
  refine ⟨?_, ?_, toLowerASCII_id defaultScheme, escape_path_id defaultPath, ?_⟩
  · have hsplit := splitHostPort_no_colon host hncol
    have hph := parseHost_hostPort host hhc (Or.inl (cutLastByte_absent 58 host hncol))
    have := makeURL_core defaultScheme defaultPath host host (itoa defaultPort) defaultPort
      hs hhc hhost.1 hph (by rw [hsplit]) (by rw [hsplit]) hhost.2 (itoa_chars defaultPort) hp2
    rw [this, hlow, hcolon, hsep]
    simp
  · have hsplit := splitHostPort_host_port host port hhost.2 hport
    have hcut := cutLastByte_append 58 host port 58 rfl
      (fun c hc => isDNSChar_ne_colon c (hpd c hc))
    have hvalid : validOptionalPort ((host ++ 58 :: port).drop host.length) = true := by
      rw [List.drop_left]
      simp only [validOptionalPort, Bool.and_eq_true, decide_eq_true_eq, List.all_eq_true]
      exact ⟨rfl, hport⟩
    have hph := parseHost_hostPort (host ++ 58 :: port) hall (Or.inr ⟨host, port, hcut, hvalid⟩)
    have := makeURL_core defaultScheme defaultPath (host ++ 58 :: port) host port defaultPort
      hs hall (by simp) hph (by rw [hsplit]) (by rw [hsplit]) hhost.2 hpd hp2
    rw [hcolon, hsep]
    simp only [List.append_assoc, List.cons_append, List.nil_append, List.singleton_append]
    rw [this, hlow]
    simp
  · intro lib c longPoll cfg h
    exact makeAddrs_forall₂ _ _ _ _ (ToESConfig_addresses lib c longPoll cfg h)

/-- C17 (amended) at a concrete input: the scheme `https`, the path `/p` and the
raw URLs `host` and `host:9201`. -/
theorem C17_makeURL_host_port_witness :
    makeURL (ascii "https") (ascii "/p") (ascii "host") 9200 =
      .ok (ascii "https://host:9200/p") ∧
    makeURL (ascii "https") (ascii "/p") (ascii "host:9201") 9200 =
      .ok (ascii "https://host:9201/p") := by
  have h := C17_makeURL_host_port (ascii "https") (ascii "/p") (ascii "host") (ascii "9201")
    9200 (Or.inr (by decide)) ⟨by decide, by decide⟩ (by decide) (Or.inr (by decide))
  refine ⟨?_, ?_⟩
  · rw [h.1]
    rfl
  · have h2 : ascii "host:9201" = ascii "host" ++ ascii ":" ++ ascii "9201" := by decide
    rw [h2, h.2.1]
    rfl

end Fleet
